/-
  Verification of the component-detection and fact-aggregation engine of
  eslint-plugin-react (the `Components` registry of src/lib/util/Components.js,
  the version-configuration utility of src/lib/util/version.js and the
  used-prop-types tracker of src/unnamed/part_016) against its
  natural-language specification.

  Modelling conventions (shallow embedding):
  * An AST node is represented as a zipper: the node's own summary record
    (`NodeInfo`) together with the list of summary records of its ancestors,
    nearest first.  `node.parent` in the JavaScript source is the head of the
    ancestor list.  The source keys nodes by the string `range[0]:range[1]`;
    we model that identity key as a natural number `nid` (distinct nodes have
    distinct source ranges, hence distinct ids).
  * JavaScript objects holding rule-specific annotation fields
    (`hasDisplayName`, `declaredPropTypes`, ...) are modelled as association
    lists from field name to an opaque numeric value; `Object.assign` copies
    the fields of the source object onto the target in order, keeping the
    insertion position of existing keys and appending new keys, exactly as
    JavaScript property assignment does.
  * Collaborator functions that live outside the repository's analysed core
    (scope resolution, `isReturningJSX`, `semver.coerce`, ...) are passed in
    as explicit oracle parameters, mirroring the spec's treatment of them as
    external predicates.
-/
import Mathlib

namespace ESLintReact

/-- Summary of the fields of one AST node that the analysed source reads.
Absent/`undefined` fields are `none` / `false` / `[]`. -/
structure NodeInfo where
  /-- Identity key; stands for the `range[0]:range[1]` string of `getId`. -/
  nid : Nat
  /-- `node.type`. -/
  typ : String
  /-- `node.kind` (`'init'` on object-literal properties, etc.). -/
  kind : Option String := none
  /-- `node.id` when present and an `Identifier`: its name (functions,
  classes). -/
  funIdName : Option String := none
  /-- `node.params.length` for function-like nodes. -/
  paramsCount : Nat := 0
  /-- whether the node has a `params` field at all. -/
  hasParams : Bool := false
  /-- `ArrowFunctionExpression.expression` (expression body). -/
  expressionFlag : Bool := false
  asyncFlag : Bool := false
  generatorFlag : Bool := false
  /-- `VariableDeclarator.id.type`. -/
  declIdType : Option String := none
  /-- `VariableDeclarator.id.name` when the `id` is an `Identifier`. -/
  declIdName : Option String := none
  /-- `AssignmentExpression.left`: `'name' in left` (plain identifier). -/
  leftName : Option String := none
  /-- whether `AssignmentExpression.left` is a `MemberExpression`. -/
  leftIsMember : Bool := false
  /-- `left.object.name` when present. -/
  leftObjectName : Option String := none
  /-- `left.property.name` when present. -/
  leftPropertyName : Option String := none
  /-- `Property.key.type` (`none` when the node has no `key`). -/
  keyType : Option String := none
  /-- `Property.key.name` when the key carries a name. -/
  keyName : Option String := none
  methodFlag : Bool := false
  computedFlag : Bool := false
  /-- `CallExpression.callee.name` when the callee is an `Identifier`. -/
  calleeName : Option String := none
  /-- whether `CallExpression.callee` is a `MemberExpression`. -/
  calleeIsMember : Bool := false
  /-- `callee.object.name` when present. -/
  calleeObjectName : Option String := none
  /-- `callee.property.name` when present. -/
  calleePropertyName : Option String := none
  /-- the `type` of each element of `CallExpression.arguments`. -/
  argTypes : List String := []
  /-- `MemberExpression`: `'property' in node && node.property`. -/
  hasProperty : Bool := false
  /-- `SequenceExpression`: the id of `expressions[expressions.length-1]`. -/
  lastExprNid : Option Nat := none
deriving DecidableEq, Repr

/-- An AST node as a zipper: its own info plus its ancestors, nearest first.
`node.parent` is the head of `ancestors`. -/
structure ASTNode where
  info : NodeInfo
  ancestors : List NodeInfo
deriving DecidableEq, Repr

/-- `getId(node)`: the identity key of a node (`range[0]:range[1]` in the
source, a bare id here). -/
def getId (node : ASTNode) : Nat := node.info.nid

/-- `node.parent` as a zipper step. -/
def ASTNode.parent (node : ASTNode) : Option ASTNode :=
  match node.ancestors with
  | [] => none
  | a :: rest => some ⟨a, rest⟩

/-- A used-prop-type fact (the source's `Prop` typedef:
`{ name, allNames, node }`). `allNames = none` models an absent field. -/
structure PropFact where
  name : String
  allNames : Option (List String) := none
  node : Option NodeInfo := none
deriving DecidableEq, Repr

/-- `usedPropTypesAreEquivalent(propA, propB)` from Components.js: names must
match; then either both `allNames` are absent, or both are arrays whose
`join('')` serializations coincide. -/
def usedPropTypesAreEquivalent (propA propB : PropFact) : Bool :=
  if propA.name == propB.name then
    if propA.allNames == none && propB.allNames == none then
      true
    else
      match propA.allNames, propB.allNames with
      | some a, some b => String.join a == String.join b
      | _, _ => false
  else false

/-- `mergeUsedPropTypes(propsList, newPropsList)` from Components.js: append
the new facts that have no equivalent already in the list. -/
def mergeUsedPropTypes (propsList newPropsList : List PropFact) : List PropFact :=
  propsList ++ newPropsList.filter fun newProp =>
    !(propsList.any fun prop => usedPropTypesAreEquivalent prop newProp)

/-- A registered component record (the source's `Component` typedef).
Rule-specific annotation fields attached through `set` are kept in the
association list `annots` (field name to an opaque value), mirroring the
dynamic fields `Object.assign` copies; `usedPropTypes` is kept apart because
`set` treats it specially.  An absent `usedPropTypes` field reads as `[]`
everywhere in the source (`component.usedPropTypes || []`), which is how we
represent it. -/
structure Component where
  node : ASTNode
  confidence : Nat
  usedPropTypes : List PropFact := []
  annots : List (String × Nat) := []
deriving DecidableEq, Repr

/-- The `Record<string, Component>` backing one `Components` instance
(`Lists.get(this)`), in key-insertion order. -/
abbrev ComponentsList := List (Nat × Component)

/-- Key lookup in the backing record (`list[id]`). -/
def rfind (list : ComponentsList) (id : Nat) : Option Component :=
  match list with
  | [] => none
  | (k, c) :: rest => if k = id then some c else rfind rest id

/-- Replace the value stored under `id`, keeping its position (JavaScript
property update). -/
def rupdate (list : ComponentsList) (id : Nat) (c : Component) : ComponentsList :=
  match list with
  | [] => []
  | (k, c0) :: rest => if k = id then (k, c) :: rest else (k, c0) :: rupdate rest id c

/-- JavaScript object property write `obj[k] = v`: update in place if the key
exists, else append. -/
def setKey (obj : List (String × Nat)) (key : String) (v : Nat) : List (String × Nat) :=
  match obj with
  | [] => [(key, v)]
  | (k, v0) :: rest => if k = key then (k, v) :: rest else (k, v0) :: setKey rest key v

/-- Association-list lookup for annotation objects. -/
def lookupKey (obj : List (String × Nat)) (key : String) : Option Nat :=
  match obj with
  | [] => none
  | (k, v) :: rest => if k = key then some v else lookupKey rest key

/-- `Object.assign(target, source)` restricted to the annotation fields:
every field of `source` is written onto `target` in order. -/
def assignAnnots (target source : List (String × Nat)) : List (String × Nat) :=
  source.foldl (fun obj kv => setKey obj kv.1 kv.2) target

/-- The `props` argument of `Components.set`: the optional `usedPropTypes`
list plus the remaining annotation fields. -/
structure SetProps where
  usedPropTypes : List PropFact := []
  annots : List (String × Nat) := []
deriving DecidableEq, Repr

/-- The body of `Components.set` once the target component is found:
`Object.assign(component, props, { usedPropTypes: mergeUsedPropTypes(...) })`.
All fields of `props` overwrite the component's fields; `usedPropTypes` is
then overwritten with the merge of the two lists. -/
def applyProps (component : Component) (props : SetProps) : Component :=
  { component with
    annots := assignAnnots component.annots props.annots
    usedPropTypes := mergeUsedPropTypes component.usedPropTypes props.usedPropTypes }

namespace Components

/-- `Components.add(node, confidence)`: upsert keyed by node identity.  An
existing record's confidence becomes `0` if either side is `0`, else the max;
a fresh record stores the given confidence.  (The source also returns the
record; the record is recoverable through `rfind`, so we model the state
transition.) -/
def add (list : ComponentsList) (node : ASTNode) (confidence : Nat) : ComponentsList :=
  let id := getId node
  match rfind list id with
  | some existing =>
      if confidence = 0 ∨ existing.confidence = 0 then
        rupdate list id { existing with confidence := 0 }
      else
        rupdate list id { existing with confidence := max existing.confidence confidence }
  | none => list ++ [(id, { node := node, confidence := confidence })]

/-- `Components.get(node)`: the record iff its confidence is ≥ 1. -/
def get (list : ComponentsList) (node : ASTNode) : Option Component :=
  match rfind list (getId node) with
  | some item => if 1 ≤ item.confidence then some item else none
  | none => none

/-- The `while (!component || component.confidence < 1)` climb of
`Components.set`, over the chain of the node itself followed by its
ancestors: the id of the first node on the chain whose record exists with
confidence ≥ 1 (`none` when the chain runs off the root, which is the
`if (!node) return;` exit of the loop). -/
def setTarget (list : ComponentsList) : List NodeInfo → Option Nat
  | [] => none
  | info :: rest =>
      match rfind list info.nid with
      | some component =>
          if component.confidence < 1 then setTarget list rest
          else some info.nid
      | none => setTarget list rest

/-- `Components.set(node, props)`: climb to the nearest registered
confidence-≥1 node (the node itself included) and apply `props` there; a
climb that reaches the root without a hit leaves the state unchanged. -/
def set (list : ComponentsList) (node : ASTNode) (props : SetProps) : ComponentsList :=
  match setTarget list (node.info :: node.ancestors) with
  | none => list
  | some id =>
      match rfind list id with
      | some component => rupdate list id (applyProps component props)
      | none => list

/-- The filter applied in `Components.list` to the facts of a
low-confidence record:
`!propType.node || propType.node.kind !== 'init'`. -/
def keepFact (propType : PropFact) : Bool :=
  match propType.node with
  | none => true
  | some n => !(n.kind == some "init")

/-- The ancestor climb of `Components.list` phase one:
`while (!component && node.parent) { node = node.parent; if (node.type ===
'Decorator') break; component = this.get(node); }` — the first ancestor
(strictly above the node) whose record has confidence ≥ 1, giving up at a
`Decorator`. -/
def findAncestorComponent (list : ComponentsList) : List NodeInfo → Option Component
  | [] => none
  | a :: rest =>
      if a.typ = "Decorator" then none
      else
        match rfind list a.nid with
        | some item =>
            if 1 ≤ item.confidence then some item
            else findAncestorComponent list rest
        | none => findAncestorComponent list rest

/-- `usedPropTypes[componentId] = mergeUsedPropTypes(usedPropTypes[componentId]
|| [], newUsedProps)` on the staging object of `Components.list`. -/
def stageMerge (staged : List (Nat × List PropFact)) (id : Nat)
    (newUsedProps : List PropFact) : List (Nat × List PropFact) :=
  match staged with
  | [] => [(id, mergeUsedPropTypes [] newUsedProps)]
  | (k, fs) :: rest =>
      if k = id then (k, mergeUsedPropTypes fs newUsedProps) :: rest
      else (k, fs) :: stageMerge rest id newUsedProps

/-- Lookup in the staging object. -/
def stageFind (staged : List (Nat × List PropFact)) (id : Nat) : Option (List PropFact) :=
  match staged with
  | [] => none
  | (k, fs) :: rest => if k = id then some fs else stageFind rest id

/-- One iteration of phase one of `Components.list`: a record of
confidence < 2 whose ancestor climb finds a confident component stages its
non-`init` facts under that ancestor's id. -/
def stageStep (list : ComponentsList) (staged : List (Nat × List PropFact))
    (kc : Nat × Component) : List (Nat × List PropFact) :=
  if kc.2.confidence < 2 then
    match findAncestorComponent list kc.2.node.ancestors with
    | some component =>
        stageMerge staged (getId component.node) (kc.2.usedPropTypes.filter keepFact)
    | none => staged
  else staged

/-- Phase one of `Components.list`: for every record of confidence < 2, climb
its ancestors to the first confident component and stage the record's
non-`init` facts under that ancestor's id. -/
def stagedUsedPropTypes (list : ComponentsList) : List (Nat × List PropFact) :=
  list.foldl (stageStep list) []

/-- Phase two of `Components.list` on one emitted record: when facts are
staged under the record's id, merge them into its `usedPropTypes`. -/
def listAug (staged : List (Nat × List PropFact)) (kc : Nat × Component) :
    Nat × Component :=
  match stageFind staged (getId kc.2.node) with
  | some fs =>
      (kc.1, { kc.2 with usedPropTypes := mergeUsedPropTypes kc.2.usedPropTypes fs })
  | none => kc

/-- `Components.list()`: emit the records of confidence ≥ 2, augmenting each
with the facts staged for it in phase one. -/
def list (thisList : ComponentsList) : ComponentsList :=
  (thisList.filter fun kc => decide (2 ≤ kc.2.confidence)).map
    (listAug (stagedUsedPropTypes thisList))

/-- `Components.length()`: the number of confidence-≥2 records. -/
def length (list : ComponentsList) : Nat :=
  (list.filter fun kc => decide (2 ≤ kc.2.confidence)).length

end Components

/-! ## version.js — React version configuration (src/lib/util/version.js) -/

/-- The module-level mutable state of version.js together with the messages
handed to the `error` logging collaborator. -/
structure VersionState where
  /-- the module-level `warnedForMissingVersion` flag. -/
  warnedForMissingVersion : Bool := false
  /-- the module-level `defaultVersion` variable. -/
  defaultVersion : String := "999.999.999"
  /-- every message passed to the `error(...)` collaborator, in order. -/
  log : List String := []
deriving DecidableEq, Repr

/-- `ULTIMATE_LATEST_SEMVER`. -/
def ULTIMATE_LATEST_SEMVER : String := "999.999.999"

/-- The `context.settings.react` configuration read by version.js.  Values
are strings (`version` may be the literal `"detect"`); an absent field is
`none`. -/
structure ReactSettings where
  version : Option String := none
  defaultVersionSetting : Option String := none
deriving DecidableEq, Repr

/-- JavaScript truthiness of an optional string setting (absent and `""` are
falsy). -/
def settingTruthy (s : Option String) : Bool :=
  match s with
  | none => false
  | some v => v ≠ ""

/-- The regular expression test `/^[0-9]+\.[0-9]+$/.test(confVer)`. -/
def isTwoPartNumeric (s : String) : Bool :=
  match s.splitOn "." with
  | [a, b] => a ≠ "" && b ≠ "" && a.all Char.isDigit && b.all Char.isDigit
  | _ => false

/-- `String(Number(part))` for one dot-segment of a version string: digit
strings round-trip (losing leading zeros), the empty string becomes `"0"`,
anything else that a configuration version string can contain becomes
`"NaN"`. -/
def jsNumberSegment (s : String) : String :=
  let t := s.trim
  if t = "" then "0"
  else if t.all Char.isDigit then toString (t.toNat?.getD 0)
  else "NaN"

/-- `convertConfVerToSemver(confVer)` from version.js; the external
`semver.coerce` package function is the oracle `coerce`, returning `none`
where the package returns `null`. -/
def convertConfVerToSemver (coerce : String → Option String) (confVer : String) :
    Option String :=
  let fullSemverString := if isTwoPartNumeric confVer then confVer ++ ".0" else confVer
  coerce (String.intercalate "." ((fullSemverString.splitOn ".").map jsNumberSegment))

/-- The warning text for a missing-version configuration. -/
def msgMissingVersion : String :=
  "Warning: React version not specified in eslint-plugin-react settings."

/-- The warning text for a malformed `version` setting (parameterised by the
offending value, as in the template literal of the source). -/
def msgMalformedVersion (confVer : String) : String :=
  "Warning: React version specified in eslint-plugin-react-settings must be a valid semver version, or detect; got " ++ confVer

/-- The warning text for a malformed `defaultVersion` setting. -/
def msgMalformedDefaultVersion (confVer : String) : String :=
  "Warning: React version specified in eslint-plugin-react-settings must be a valid semver version, or detect; got " ++ confVer ++ ". Falling back to latest version as default."

/-- `readDefaultReactVersionFromContext(context)` from version.js.  (The
`typeof !== 'string'` branch is unreachable in this string-valued model.) -/
def readDefaultReactVersionFromContext (coerce : String → Option String)
    (settings : ReactSettings) (s : VersionState) : VersionState :=
  if settingTruthy settings.defaultVersionSetting then
    let settingsDefaultVersion := settings.defaultVersionSetting.getD ""
    match convertConfVerToSemver coerce settingsDefaultVersion with
    | some result => { s with defaultVersion := result }
    | none => { s with log := s.log ++ [msgMalformedDefaultVersion settingsDefaultVersion] }
  else { s with defaultVersion := ULTIMATE_LATEST_SEMVER }

/-- `getReactVersionFromContext(context)` from version.js.  `detected` is the
result of the `detectReactVersion` collaborator (module resolution, used only
when the setting is the literal `"detect"`).  Returns the version string the
engine proceeds with, together with the updated module state. -/
def getReactVersionFromContext (coerce : String → Option String) (detected : String)
    (settings : ReactSettings) (s0 : VersionState) : String × VersionState :=
  let s1 := readDefaultReactVersionFromContext coerce settings s0
  let confVer := s1.defaultVersion
  let (confVer, s2) :=
    if settingTruthy settings.version then
      let settingsVersion := settings.version.getD ""
      let settingsVersion := if settingsVersion = "detect" then detected else settingsVersion
      (settingsVersion, s1)
    else if !s1.warnedForMissingVersion then
      (confVer, { s1 with log := s1.log ++ [msgMissingVersion]
                          warnedForMissingVersion := true })
    else (confVer, s1)
  match convertConfVerToSemver coerce confVer with
  | some result => (result, s2)
  | none =>
      (s2.defaultVersion, { s2 with log := s2.log ++ [msgMalformedVersion confVer] })

/-! ## usedPropTypes: `createPropVariables` (src/unnamed/part_016) -/

/-- A JavaScript `Map<string, string[]>` as an insertion-ordered association
list. -/
abbrev PropMap := List (String × List String)

/-- `Map.prototype.set`: update the existing key in place, else append. -/
def mapSet (m : PropMap) (name : String) (allNames : List String) : PropMap :=
  match m with
  | [] => [(name, allNames)]
  | (k, v) :: rest =>
      if k = name then (k, allNames) :: rest else (k, v) :: mapSet rest name allNames

/-- `Map.prototype.get`. -/
def mapGet (m : PropMap) (name : String) : Option (List String) :=
  match m with
  | [] => none
  | (k, v) :: rest => if k = name then some v else mapGet rest name

/-- The state of the closure returned by `createPropVariables`.  Map objects
live in `heap` and are referenced by index, so that object sharing between
stack frames is observable (the copy-on-write behaviour is about object
identity).  `cur`/`curHBW` are the closure-level variables `propVariables`
and `hasBeenWritten`; `stack` holds the `{ propVariables, hasBeenWritten }`
records, top first. -/
structure PropVarState where
  heap : List PropMap := [[]]
  stack : List (Nat × Bool) := [(0, false)]
  cur : Nat := 0
  curHBW : Bool := false
deriving DecidableEq, Repr

/-- The fresh state built by `createPropVariables()`. -/
def createPropVariables : PropVarState := {}

/-- `pushScope()`: push `{ propVariables, hasBeenWritten: false }` (the
closure-level flag is not touched). -/
def pushScope (s : PropVarState) : PropVarState :=
  { s with stack := (s.cur, false) :: s.stack }

/-- `popScope()`: pop, then reload both closure variables from the new top of
the stack.  (Popping the base frame would dereference `undefined` in the
source; traversal callbacks keep push/pop balanced, so that case is modelled
as a no-op.) -/
def popScope (s : PropVarState) : PropVarState :=
  match s.stack with
  | _ :: (m, b) :: rest => { s with stack := (m, b) :: rest, cur := m, curHBW := b }
  | _ => s

/-- Write `name ↦ allNames` into the map currently referenced by `cur`. -/
def pvWriteCur (s : PropVarState) (name : String) (allNames : List String) : PropVarState :=
  { s with heap := s.heap.set s.cur (mapSet ((s.heap.get? s.cur).getD []) name allNames) }

/-- `set(name, allNames)` of the `createPropVariables` closure: when the
closure-level `hasBeenWritten` is false, copy the current map into a fresh
object and store `{ propVariables, hasBeenWritten: true }` into the top stack
record (the source updates only the stack record's flag, never the
closure-level variable — `curHBW` is left as it was); then write into the
current map in place. -/
def pvSet (s : PropVarState) (name : String) (allNames : List String) : PropVarState :=
  if !s.curHBW then
    let newId := s.heap.length
    let copied := (s.heap.get? s.cur).getD []
    let s := { s with
      heap := s.heap ++ [copied]
      stack := match s.stack with
               | _ :: rest => (newId, true) :: rest
               | [] => []
      cur := newId }
    pvWriteCur s name allNames
  else pvWriteCur s name allNames

/-- `get(name)` of the `createPropVariables` closure. -/
def pvGet (s : PropVarState) (name : String) : Option (List String) :=
  mapGet ((s.heap.get? s.cur).getD []) name

/-! ## Detection utilities and instructions (src/lib/util/Components.js) -/

/-- One entry of the `wrapperFunctions` list built by `getWrapperFunctions`
(a configured or default `{ property, object }` wrapper descriptor;
`object = none` for a bare string entry). -/
structure WrapperFn where
  property : String
  object : Option String := none
deriving DecidableEq, Repr

/-- Modelled from the spec: the repository's `isFirstLetterCapitalized`
helper is not under src/; per the spec's stateless-component test (§4.2) it
checks that a name "starts with an uppercase letter".  Absent names (passed
as `""` here) are not capitalized. -/
def isFirstLetterCapitalized (word : String) : Bool :=
  match word.toList with
  | [] => false
  | c :: _ => c.isUpper

/-- `isFunctionLikeExpression` from the AST utility module, applied to a node
`type`. -/
def isFunctionLikeExpressionType (typ : String) : Bool :=
  typ == "FunctionExpression" || typ == "ArrowFunctionExpression"

/-- The collaborator oracles of the detection engine, keyed by node id:
`isReturningJSX` / `isReturningJSXOrNull` / `isReturningOnlyNull` (jsx.js),
`isDestructuredFromPragmaImport` (scope/import analysis) and
`nodeWrapsComponent` (which inspects the registry through
`getDetectedComponents`); plus the pragma and the wrapper list. -/
structure DetectEnv where
  pragma : String := "React"
  wrapperFunctions : List WrapperFn :=
    [⟨"forwardRef", some "React"⟩, ⟨"memo", some "React"⟩]
  destructuredFromPragma : Nat → String → Bool := fun _ _ => false
  nodeWraps : Nat → Bool := fun _ => false
  isRetJSX : Nat → Bool := fun _ => false
  isRetJSXOrNull : Nat → Bool := fun _ => false
  isRetOnlyNull : Nat → Bool := fun _ => false

/-- `utils.isPragmaComponentWrapper(node)` on a node summary: a
`CallExpression` whose callee matches one of the wrapper descriptors (member
callee: object and property names match and the call does not wrap an
already-detected component; identifier callee: property name matches and,
for a pragma-qualified descriptor, the name is destructured from the pragma
import). -/
def isPragmaComponentWrapper (env : DetectEnv) (n : NodeInfo) : Bool :=
  if n.typ ≠ "CallExpression" then false
  else
    env.wrapperFunctions.any fun wrapperFunction =>
      if n.calleeIsMember then
        wrapperFunction.object.isSome
          && n.calleeObjectName.isSome
          && wrapperFunction.object == n.calleeObjectName
          && n.calleePropertyName.isSome
          && (some wrapperFunction.property) == n.calleePropertyName
          && !env.nodeWraps n.nid
      else
        n.calleeName.isSome
          && (some wrapperFunction.property) == n.calleeName
          && (wrapperFunction.object == none
              || (wrapperFunction.object == some env.pragma
                  && env.destructuredFromPragma n.nid (n.calleeName.getD "")))

/-- The climb of `utils.getPragmaComponentWrapper(node)`: follow consecutive
wrapper-call parents upward and keep the last one seen. -/
def pragmaWrapperClimb (env : DetectEnv) :
    List NodeInfo → Option ASTNode → Option ASTNode
  | [], prevNode => prevNode
  | a :: rest, prevNode =>
      if isPragmaComponentWrapper env a then
        pragmaWrapperClimb env rest (some ⟨a, rest⟩)
      else prevNode

/-- `utils.getPragmaComponentWrapper(node)`: the outermost node of the
maximal chain of wrapper calls directly above `node` (`none` when the direct
parent is not a wrapper call). -/
def getPragmaComponentWrapper (env : DetectEnv) (node : ASTNode) : Option ASTNode :=
  pragmaWrapperClimb env node.ancestors none

/-- The recursion of `utils.isInAllowedPositionForComponent`, on the id of
the node under scrutiny and its ancestor chain. -/
def allowedPositionAux (selfNid : Nat) : List NodeInfo → Bool
  | [] => false
  | parent :: rest =>
      if parent.typ = "VariableDeclarator" ∨ parent.typ = "AssignmentExpression"
          ∨ parent.typ = "Property" ∨ parent.typ = "ReturnStatement"
          ∨ parent.typ = "ExportDefaultDeclaration"
          ∨ parent.typ = "ArrowFunctionExpression" then
        true
      else if parent.typ = "SequenceExpression" then
        allowedPositionAux parent.nid rest
          && parent.lastExprNid == some selfNid
      else false

/-- `utils.isInAllowedPositionForComponent(node)`: structurally allowed
positions, looking through trailing members of comma-expression chains. -/
def isInAllowedPositionForComponent (node : ASTNode) : Bool :=
  allowedPositionAux node.info.nid node.ancestors

/-- `name.charAt(0) === name.charAt(0).toLowerCase()` (true for the empty
string and for non-letter first characters, as in JavaScript). -/
def jsFirstCharNotUpper (s : String) : Bool :=
  match s.toList with
  | [] => true
  | c :: _ => c == c.toLower

/-- `utils.isParentComponentNotStatelessComponent(node)`: a lowercase
identifier property key above a function that takes parameters (render-prop
pattern). -/
def isParentComponentNotStatelessComponent (node : ASTNode) : Bool :=
  match node.ancestors with
  | [] => false
  | parent :: _ =>
      parent.keyType == some "Identifier"
        && jsFirstCharNotUpper (parent.keyName.getD "")
        && (!node.info.hasParams || node.info.paramsCount > 0)

/-- `utils.getStatelessComponent(node)`: the stateless-component test,
returning the accepted component node (the node itself, or the outer pragma
wrapper call).  The source dereferences `node.parent` (and further
ancestors) without guarding; positions where that would throw on a detached
node are modelled as failed matches, which is unreachable for nodes inside a
program tree. -/
def getStatelessComponent (env : DetectEnv) (node : ASTNode) : Option ASTNode :=
  let nid := node.info.nid
  if node.info.typ = "FunctionDeclaration" then
    if (node.info.funIdName = none
          ∨ isFirstLetterCapitalized (node.info.funIdName.getD ""))
        ∧ env.isRetJSXOrNull nid then
      some node
    else none
  else if node.info.typ = "FunctionExpression"
      ∨ node.info.typ = "ArrowFunctionExpression" then
    match node.ancestors with
    | [] => none
    | parent :: rest =>
      let anc1 := rest.head?
      let anc3 := rest.get? 2
      let isPropertyAssignment :=
        parent.typ == "AssignmentExpression" && parent.leftIsMember
      let isModuleExportsAssignment :=
        isPropertyAssignment && parent.leftObjectName == some "module"
          && parent.leftPropertyName == some "exports"
      if parent.typ = "ExportDefaultDeclaration" then
        if env.isRetJSX nid then some node else none
      else if parent.typ = "VariableDeclarator" ∧ env.isRetJSXOrNull nid then
        if parent.declIdName.isSome
            ∧ isFirstLetterCapitalized (parent.declIdName.getD "") then
          some node
        else none
      else if (parent.typ = "ReturnStatement"
            ∨ (parent.typ = "ArrowFunctionExpression" ∧ parent.expressionFlag))
          ∧ ¬env.isRetJSX nid then
        none
      else if parent.typ = "AssignmentExpression" ∧ ¬isPropertyAssignment
          ∧ env.isRetJSXOrNull nid then
        if parent.leftName.isSome
            ∧ isFirstLetterCapitalized (parent.leftName.getD "") then
          some node
        else none
      else if parent.typ = "ArrowFunctionExpression"
          ∧ (anc1.map (·.typ)) = some "AssignmentExpression"
          ∧ ¬isPropertyAssignment ∧ env.isRetJSXOrNull nid then
        if (anc1.bind (·.leftName)).isSome
            ∧ isFirstLetterCapitalized ((anc1.bind (·.leftName)).getD "") then
          some node
        else none
      else if parent.typ = "ArrowFunctionExpression"
          ∧ (anc1.map (·.typ)) = some "Property"
          ∧ ¬isPropertyAssignment ∧ env.isRetJSXOrNull nid then
        if (anc1.bind (·.keyName)).isSome
            ∧ isFirstLetterCapitalized ((anc1.bind (·.keyName)).getD "") then
          some node
        else none
      else if parent.typ = "ReturnStatement"
          ∧ isFirstLetterCapitalized (node.info.funIdName.getD "") then
        some node
      else if parent.typ = "ReturnStatement"
          ∧ (anc3.map (·.typ)) = some "AssignmentExpression"
          ∧ ¬isPropertyAssignment ∧ env.isRetJSXOrNull nid then
        if (anc3.bind (·.leftName)).isSome
            ∧ isFirstLetterCapitalized ((anc3.bind (·.leftName)).getD "") then
          some node
        else none
      else if parent.typ = "ReturnStatement"
          ∧ (anc3.map (·.typ)) = some "Property"
          ∧ ¬isPropertyAssignment ∧ env.isRetJSXOrNull nid then
        if (anc3.bind (·.keyName)).isSome
            ∧ isFirstLetterCapitalized ((anc3.bind (·.keyName)).getD "") then
          some node
        else none
      else if parent.keyType = some "MemberExpression"
          ∧ ¬env.isRetJSX nid ∧ ¬env.isRetOnlyNull nid then
        none
      else if parent.typ = "Property"
          ∧ ((parent.methodFlag ∧ ¬parent.computedFlag)
              ∨ (node.info.funIdName = none ∧ ¬parent.computedFlag)) then
        if parent.keyName.isSome
            ∧ isFirstLetterCapitalized (parent.keyName.getD "")
            ∧ env.isRetJSX nid then
          some node
        else none
      else
        let pragmaComponentWrapper := getPragmaComponentWrapper env node
        if pragmaComponentWrapper.isSome ∧ env.isRetJSXOrNull nid then
          pragmaComponentWrapper
        else if ¬(isInAllowedPositionForComponent node ∧ env.isRetJSXOrNull nid) then
          none
        else if isParentComponentNotStatelessComponent node then
          none
        else if node.info.funIdName.isSome then
          if isFirstLetterCapitalized (node.info.funIdName.getD "") then
            some node
          else none
        else if isPropertyAssignment ∧ ¬isModuleExportsAssignment
            ∧ parent.leftPropertyName.isSome
            ∧ ¬isFirstLetterCapitalized (parent.leftPropertyName.getD "") then
          none
        else if parent.typ = "Property" ∧ env.isRetOnlyNull nid then
          none
        else some node
  else none

/-- `utils.getParentStatelessComponent(node)`: walk the lexical scope chain
(the scope collaborator supplies the blocks, innermost first) and return the
first block accepted by the stateless-component test. -/
def getParentStatelessComponent (env : DetectEnv) :
    List ASTNode → Option ASTNode
  | [] => none
  | block :: upper =>
      match getStatelessComponent env block with
      | some statelessComponent => some statelessComponent
      | none => getParentStatelessComponent env upper

/-- The `CallExpression` detection instruction: a wrapper call whose first
argument is function-like is registered with confidence 2. -/
def detectionCallExpression (env : DetectEnv) (list : ComponentsList)
    (node : ASTNode) : ComponentsList :=
  if !isPragmaComponentWrapper env node.info then list
  else if node.info.argTypes.length > 0
      && isFunctionLikeExpressionType (node.info.argTypes.headI) then
    Components.add list node 2
  else list

/-- The `ArrowFunctionExpression` detection instruction. -/
def detectionArrowFunctionExpression (env : DetectEnv) (list : ComponentsList)
    (node : ASTNode) : ComponentsList :=
  match getStatelessComponent env node with
  | some component => Components.add list component 2
  | none => list

/-- The `FunctionExpression` / `FunctionDeclaration` detection instruction:
an `async` generator is banned outright, otherwise the stateless-component
test decides. -/
def detectionFunctionLike (env : DetectEnv) (list : ComponentsList)
    (node : ASTNode) : ComponentsList :=
  if node.info.asyncFlag && node.info.generatorFlag then
    Components.add list node 0
  else
    match getStatelessComponent env node with
    | some component => Components.add list component 2
    | none => list

/-- The `ThisExpression` detection instruction (`scopeBlocks` is the lexical
scope chain of the `this` expression, supplied by the scope collaborator):
when the enclosing stateless component is function-like and the parent
accesses a property, `components.add(node, 0)` is called — on the
`ThisExpression` node itself. -/
def detectionThisExpression (env : DetectEnv) (list : ComponentsList)
    (node : ASTNode) (scopeBlocks : List ASTNode) : ComponentsList :=
  match getParentStatelessComponent env scopeBlocks with
  | none => list
  | some component =>
      if ¬("Function".toList <:+: component.info.typ.toList) then list
      else
        match node.ancestors with
        | [] => list
        | parent :: _ =>
            if parent.hasProperty then Components.add list node 0
            else list

/-! ## usedPropTypes: `markPropTypesAsUsed` — destructuring path
(src/unnamed/part_016) -/

/-- One element of an `ObjectPattern.properties` array as read by the
destructuring loop of `markPropTypesAsUsed`: the property node's summary
(`info`, recorded into the fact and consulted for `type`/`computed`), the
result of the token-level `hasSpreadOperator` collaborator, the result of
`getKeyValue` (`none` when absent), and the shape of `properties[k].value`
(an identifier name, a nested object pattern, or anything else). -/
inductive PatProp where
  | mk (info : NodeInfo) (isSpread : Bool) (keyName : Option String)
       (valueIdentName : Option String)
       (valueObjectPattern : Option (List PatProp))

/-- Field accessors for `PatProp`. -/
def PatProp.info : PatProp → NodeInfo
  | .mk i _ _ _ _ => i

def PatProp.isSpread : PatProp → Bool
  | .mk _ s _ _ _ => s

def PatProp.keyName : PatProp → Option String
  | .mk _ _ k _ _ => k

def PatProp.valueIdentName : PatProp → Option String
  | .mk _ _ _ v _ => v

def PatProp.valueObjectPattern : PatProp → Option (List PatProp)
  | .mk _ _ _ _ v => v

/-- `component.ignoreUnusedPropTypesValidation` as stored through `set`
(annotation value `1` is `true`). -/
def Component.ignoreFlag (c : Component) : Bool :=
  lookupKey c.annots "ignoreUnusedPropTypesValidation" == some 1

/-- Encode a boolean annotation value. -/
def boolAnnot (b : Bool) : Nat := if b then 1 else 0

mutual

/-- The `type === 'destructuring'` loop of `markPropTypesAsUsed`: walk the
pattern properties in order; a spread element or computed key sets the
ignore flag and breaks; a missing/empty key or a non-`Property` element
breaks silently; otherwise a fact is pushed for the key, a nested object
pattern recurses into `markPropTypesAsUsed`, and an identifier value extends
`propVariables`.  `facts` is the component's `usedPropTypes` array, which the
source mutates in place (`usedPropTypes.push`), so pushes at nested levels
accumulate into the same list. -/
def destrLoop (targetParent : Option ASTNode) (props : List PatProp)
    (parentNames : List String) (facts : List PropFact) (ignore : Bool)
    (pv : PropVarState) (reg : ComponentsList) :
    List PropFact × Bool × PropVarState × ComponentsList :=
  match props with
  | [] => (facts, ignore, pv, reg)
  | .mk info isSpread keyName valueIdentName valueObjectPattern :: rest =>
      if isSpread || info.computedFlag then (facts, true, pv, reg)
      else
        match keyName with
        | none => (facts, ignore, pv, reg)
        | some propName =>
            if propName = "" ∨ info.typ ≠ "Property" then (facts, ignore, pv, reg)
            else
              let facts := facts ++
                [{ name := propName, allNames := some (parentNames ++ [propName])
                   node := some info }]
              match valueObjectPattern with
              | some nestedProps =>
                  let (facts, pv, reg) :=
                    markPropTypesAsUsedDestrAcc targetParent ⟨info, []⟩ nestedProps
                      (parentNames ++ [propName]) facts pv reg
                  destrLoop targetParent rest parentNames facts ignore pv reg
              | none =>
                  match valueIdentName with
                  | some vname =>
                      destrLoop targetParent rest parentNames facts ignore
                        (pvSet pv vname (parentNames ++ [propName])) reg
                  | none => destrLoop targetParent rest parentNames facts ignore pv reg

/-- One invocation of `markPropTypesAsUsed` on an object pattern, given that
the component's shared `usedPropTypes` array currently holds `factsIn`:
read the component (through the externalized `utils.getParentComponent`
result `targetParent`) and its current ignore flag, run the destructuring
loop, then `components.set(component ? component.node : node,
{ usedPropTypes, ignoreUnusedPropTypesValidation })`. -/
def markPropTypesAsUsedDestrAcc (targetParent : Option ASTNode)
    (selfNode : ASTNode) (props : List PatProp) (parentNames : List String)
    (factsIn : List PropFact) (pv : PropVarState) (reg : ComponentsList) :
    List PropFact × PropVarState × ComponentsList :=
  let component := targetParent.bind fun pn => Components.get reg pn
  let ignore0 := (component.map Component.ignoreFlag).getD false
  let (facts, loopFlag, pv, reg) :=
    destrLoop targetParent props parentNames factsIn false pv reg
  let ignore := ignore0 || loopFlag
  let targetNode := (component.map Component.node).getD selfNode
  (facts, pv,
    Components.set reg targetNode
      { usedPropTypes := facts
        annots := [("ignoreUnusedPropTypesValidation", boolAnnot ignore)] })

end

/-- Top-level `markPropTypesAsUsed(node)` for the destructuring case: the
component's current `usedPropTypes` (`component.usedPropTypes || []`) seeds
the shared array. -/
def markPropTypesAsUsedDestructuring (reg : ComponentsList) (pv : PropVarState)
    (targetParent : Option ASTNode) (selfNode : ASTNode) (props : List PatProp)
    (parentNames : List String) : ComponentsList × PropVarState :=
  let component := targetParent.bind fun pn => Components.get reg pn
  let facts0 := (component.map Component.usedPropTypes).getD []
  let (_, pv, reg) :=
    markPropTypesAsUsedDestrAcc targetParent selfNode props parentNames facts0 pv reg
  (reg, pv)

/-- The shape of one function parameter as read by
`markDestructuredFunctionArgumentsAsUsed` and the function-like entry of
`markPropTypesAsUsed`. -/
inductive ParamShape where
  | objectPatternParam (props : List PatProp)
  /-- an `AssignmentPattern` whose `left` is an `ObjectPattern`. -/
  | assignmentObjectPatternParam (props : List PatProp)
  /-- an `AssignmentPattern` with any other `left`. -/
  | assignmentOtherParam (leftTyp : String)
  | otherParam (typ : String)

/-- The function-like entry of `markPropTypesAsUsed`: choose
`params[1]` for a `setState` updater else `params[0]`, take its
`properties` (`undefined`, i.e. `[]`, for a non-pattern parameter — the
loop then does nothing but the trailing `components.set` still runs, which
is also the behaviour when `params` is empty and `type` stays undefined). -/
def markPropTypesAsUsedFunctionLike (reg : ComponentsList) (pv : PropVarState)
    (selfNode : ASTNode) (params : List ParamShape) (isSetStateUpd : Bool)
    (targetParent : Option ASTNode) : ComponentsList × PropVarState :=
  let propParam := if isSetStateUpd then params.get? 1 else params.get? 0
  let properties : List PatProp :=
    match propParam with
    | some (.objectPatternParam ps) => ps
    | some (.assignmentObjectPatternParam ps) => ps
    | _ => []
  markPropTypesAsUsedDestructuring reg pv targetParent selfNode properties []

/-- `markDestructuredFunctionArgumentsAsUsed(node)` from the usedPropTypes
tracker: only a destructuring parameter of a node that is (or whose parent
is) a registered confident component is marked.  `isSetStateUpd` is the
externalized `isSetStateUpdater(node)` scope test and `targetParent` the
externalized `utils.getParentComponent(node)`. -/
def markDestructuredFunctionArgumentsAsUsed (reg : ComponentsList)
    (pv : PropVarState) (node : ASTNode) (params : List ParamShape)
    (isSetStateUpd : Bool) (targetParent : Option ASTNode) :
    ComponentsList × PropVarState :=
  let param := if isSetStateUpd then params.get? 1 else params.get? 0
  let destructuring :=
    match param with
    | some (.objectPatternParam _) => true
    | some (.assignmentObjectPatternParam _) => true
    | _ => false
  if destructuring
      && ((Components.get reg node).isSome
          || (node.parent.bind fun p => Components.get reg p).isSome) then
    markPropTypesAsUsedFunctionLike reg pv node params isSetStateUpd targetParent
  else (reg, pv)

/-! ## Derived notions used to state the claims -/

/-- The confidence-combination step of `Components.add` on an existing
record. -/
def addConf (old new : Nat) : Nat :=
  if new = 0 ∨ old = 0 then 0 else max old new

/-- A sequence of `add(node, cᵢ)` calls. -/
def foldAdds (list : ComponentsList) (node : ASTNode) (cs : List Nat) : ComponentsList :=
  cs.foldl (fun acc c => Components.add acc node c) list

/-- Whether the registry holds a confidence-≥1 record for a node id — the
condition on which the climb of `Components.set` stops. -/
def attachable (list : ComponentsList) (i : NodeInfo) : Bool :=
  match rfind list i.nid with
  | some c => 1 ≤ c.confidence
  | none => false

/-- Whether some fact equivalent to `f` occurs in `L`. -/
def equivAny (f : PropFact) (L : List PropFact) : Bool :=
  L.any fun g => usedPropTypesAreEquivalent g f

/-- Registry invariant: every record is stored under the id of its own node
(which `Components.add`, the only entry creator, guarantees). -/
abbrev WellKeyed (list : ComponentsList) : Prop :=
  ∀ kc ∈ list, getId kc.2.node = kc.1

/-- Registry invariant: the backing record has no duplicate keys (JavaScript
object keys are unique). -/
abbrev NodupKeys (list : ComponentsList) : Prop :=
  (list.map Prod.fst).Nodup

/-- The fact recorded by the destructuring loop for one pattern key. -/
def patFact (parentNames : List String) (p : PatProp) : PropFact :=
  { name := p.keyName.getD ""
    allNames := some (parentNames ++ [p.keyName.getD ""])
    node := some p.info }

/-! ## Concrete scenarios -/

/-! ### C1: a confidence-1 ancestor between a low-confidence node and its
confidence-2 ancestor -/

def c1InfoProg : NodeInfo := { nid := 0, typ := "Program" }
def c1InfoT : NodeInfo := { nid := 10, typ := "FunctionDeclaration" }
def c1InfoM : NodeInfo := { nid := 20, typ := "ArrowFunctionExpression" }
def c1InfoL : NodeInfo := { nid := 30, typ := "ArrowFunctionExpression" }
def c1NodeT : ASTNode := ⟨c1InfoT, [c1InfoProg]⟩
def c1NodeM : ASTNode := ⟨c1InfoM, [c1InfoT, c1InfoProg]⟩
def c1NodeL : ASTNode := ⟨c1InfoL, [c1InfoM, c1InfoT, c1InfoProg]⟩
def c1Fact : PropFact := { name := "x", allNames := some ["x"] }

/-- `T` confirmed (confidence 2), `M` tentative (confidence 1) strictly
between `L` and `T`, a fact recorded on the tentative `L`. -/
def c1Reg : ComponentsList :=
  Components.set
    (Components.add (Components.add (Components.add [] c1NodeT 2) c1NodeM 1) c1NodeL 1)
    c1NodeL { usedPropTypes := [c1Fact] }

def c1wInfoL : NodeInfo := { nid := 31, typ := "ArrowFunctionExpression" }
def c1wNodeL : ASTNode := ⟨c1wInfoL, [c1InfoT, c1InfoProg]⟩

/-- Witness scenario for the amended claim: the tentative node sits directly
below the confirmed component. -/
def c1wReg : ComponentsList :=
  Components.set (Components.add (Components.add [] c1NodeT 2) c1wNodeL 1)
    c1wNodeL { usedPropTypes := [c1Fact] }

/-! ### C2 -/

def c2Node : ASTNode := ⟨{ nid := 1, typ := "ClassDeclaration" }, []⟩

/-! ### C3: a parent chain with an unregistered node below a registered
confidence-2 component -/

def c3InfoInner : NodeInfo := { nid := 35, typ := "BlockStatement" }
def c3InfoComp : NodeInfo := { nid := 36, typ := "FunctionDeclaration" }
def c3InfoProg : NodeInfo := { nid := 37, typ := "Program" }
def c3Node : ASTNode := ⟨c3InfoInner, [c3InfoComp, c3InfoProg]⟩
def c3NodeComp : ASTNode := ⟨c3InfoComp, [c3InfoProg]⟩
def c3Reg : ComponentsList := Components.add [] c3NodeComp 2
def c3Props : SetProps := { usedPropTypes := [{ name := "y", allNames := some ["y"] }] }

/-! ### C4: `const Foo = function() { return <div>{this.props.x}</div>; }` -/

def c4Env : DetectEnv := { isRetJSXOrNull := fun nid => nid == 43 }
def c4InfoProg : NodeInfo := { nid := 40, typ := "Program" }
def c4InfoVarDecl : NodeInfo := { nid := 41, typ := "VariableDeclaration" }
def c4InfoDecl : NodeInfo :=
  { nid := 42, typ := "VariableDeclarator"
    declIdType := some "Identifier", declIdName := some "Foo" }
def c4InfoFun : NodeInfo := { nid := 43, typ := "FunctionExpression", hasParams := true }
def c4InfoBlock : NodeInfo := { nid := 44, typ := "BlockStatement" }
def c4InfoRet : NodeInfo := { nid := 45, typ := "ReturnStatement" }
def c4InfoMember : NodeInfo := { nid := 47, typ := "MemberExpression", hasProperty := true }
def c4InfoThis : NodeInfo := { nid := 48, typ := "ThisExpression" }
def c4NodeFun : ASTNode := ⟨c4InfoFun, [c4InfoDecl, c4InfoVarDecl, c4InfoProg]⟩
def c4NodeThis : ASTNode :=
  ⟨c4InfoThis,
    [c4InfoMember, c4InfoRet, c4InfoBlock, c4InfoFun, c4InfoDecl, c4InfoVarDecl, c4InfoProg]⟩

/-- The detection walk of the scenario: the `FunctionExpression` instruction
fires on `Foo`'s function, then the `ThisExpression` instruction fires on the
`this` inside it (its lexical scope chain is the function itself). -/
def c4Walk : ComponentsList :=
  detectionThisExpression c4Env (detectionFunctionLike c4Env [] c4NodeFun)
    c4NodeThis [c4NodeFun]

/-! ### C5: `function Foo({a, ...rest}) { return <div/>; }` -/

def c5Env : DetectEnv := { isRetJSXOrNull := fun nid => nid == 51 }
def c5InfoProg : NodeInfo := { nid := 50, typ := "Program" }
def c5InfoFoo : NodeInfo :=
  { nid := 51, typ := "FunctionDeclaration", funIdName := some "Foo"
    hasParams := true, paramsCount := 1 }
def c5NodeFoo : ASTNode := ⟨c5InfoFoo, [c5InfoProg]⟩
def c5PropA : PatProp :=
  .mk { nid := 53, typ := "Property" } false (some "a") (some "a") none
def c5PropRest : PatProp :=
  .mk { nid := 54, typ := "RestElement" } true none (some "rest") none
def c5Params : List ParamShape := [.objectPatternParam [c5PropA, c5PropRest]]

/-- Registry after the detection pass registers `Foo` with confidence 2. -/
def c5Reg0 : ComponentsList := detectionFunctionLike c5Env [] c5NodeFoo

/-- State after the used-props tracker handles `Foo`'s destructured
parameter. -/
def c5Run : ComponentsList × PropVarState :=
  markDestructuredFunctionArgumentsAsUsed c5Reg0 createPropVariables c5NodeFoo
    c5Params false (some c5NodeFoo)

/-! ### C6: `const Foo = memo(forwardRef((props, ref) => <div/>))` -/

def c6Env : DetectEnv :=
  { destructuredFromPragma := fun _ _ => true
    isRetJSXOrNull := fun nid => nid == 65 }
def c6InfoProg : NodeInfo := { nid := 60, typ := "Program" }
def c6InfoVarDecl : NodeInfo := { nid := 61, typ := "VariableDeclaration" }
def c6InfoDecl : NodeInfo :=
  { nid := 62, typ := "VariableDeclarator"
    declIdType := some "Identifier", declIdName := some "Foo" }
def c6InfoMemo : NodeInfo :=
  { nid := 63, typ := "CallExpression", calleeName := some "memo"
    argTypes := ["CallExpression"] }
def c6InfoFwd : NodeInfo :=
  { nid := 64, typ := "CallExpression", calleeName := some "forwardRef"
    argTypes := ["ArrowFunctionExpression"] }
def c6InfoArrow : NodeInfo :=
  { nid := 65, typ := "ArrowFunctionExpression", hasParams := true, paramsCount := 2 }
def c6NodeMemo : ASTNode := ⟨c6InfoMemo, [c6InfoDecl, c6InfoVarDecl, c6InfoProg]⟩
def c6NodeFwd : ASTNode := ⟨c6InfoFwd, [c6InfoMemo, c6InfoDecl, c6InfoVarDecl, c6InfoProg]⟩
def c6NodeArrow : ASTNode :=
  ⟨c6InfoArrow, [c6InfoFwd, c6InfoMemo, c6InfoDecl, c6InfoVarDecl, c6InfoProg]⟩

/-- The full detection walk in document order: `CallExpression` on the memo
call, `CallExpression` on the forwardRef call, `ArrowFunctionExpression` on
the inner arrow. -/
def c6Walk : ComponentsList :=
  detectionArrowFunctionExpression c6Env
    (detectionCallExpression c6Env (detectionCallExpression c6Env [] c6NodeMemo) c6NodeFwd)
    c6NodeArrow

/-! ### C7 / C8 -/

def c7Node : ASTNode := ⟨{ nid := 70, typ := "FunctionDeclaration" }, []⟩
def c7Fact : PropFact := { name := "z", allNames := some ["z"] }
def c7Reg : ComponentsList := Components.add [] c7Node 2

def c8Node : ASTNode := ⟨{ nid := 80, typ := "ClassDeclaration" }, []⟩

/-- A component that already carries `hasDisplayName = true` (annotation
value 1). -/
def c8Reg : ComponentsList :=
  Components.set (Components.add [] c8Node 2) c8Node
    { annots := [("hasDisplayName", 1)] }

/-- The same registry after a later `set` carrying `hasDisplayName = false`
(annotation value 0). -/
def c8Reg2 : ComponentsList :=
  Components.set c8Reg c8Node { annots := [("hasDisplayName", 0)] }

/-! ### C9 -/

/-- `semver.coerce` refuses every string of interest in this scenario (as it
does the `"NaN"` the malformed setting normalizes to). -/
def c9Coerce : String → Option String := fun _ => none

def c9Settings : ReactSettings := { version := some "not-semver" }

def c9Call1 : String × VersionState :=
  getReactVersionFromContext c9Coerce "detect-unused" c9Settings {}

def c9Call2 : String × VersionState :=
  getReactVersionFromContext c9Coerce "detect-unused" c9Settings c9Call1.2

/-! ### C10: the trace `set a; push; pop; push; set c; pop` -/

def c10s1 : PropVarState := pvSet createPropVariables "a" ["a"]
def c10s3 : PropVarState := popScope (pushScope c10s1)
def c10s4 : PropVarState := pushScope c10s3
def c10s5 : PropVarState := pvSet c10s4 "c" ["c"]
def c10s6 : PropVarState := popScope c10s5

/-! ## Helper lemmas on the registry primitives -/

theorem rfind_rupdate_self {list : ComponentsList} {id : Nat} {c0 : Component}
    (c : Component) (h : rfind list id = some c0) :
    rfind (rupdate list id c) id = some c := by
  induction list with
  | nil => simp [rfind] at h
  | cons kc rest ih =>
      obtain ⟨k, c1⟩ := kc
      by_cases hk : k = id
      · subst hk; simp [rfind, rupdate]
      · simp only [rfind, rupdate, if_neg hk] at h ⊢
        exact ih h

theorem rfind_rupdate_ne {list : ComponentsList} {id j : Nat} (c : Component)
    (h : j ≠ id) : rfind (rupdate list id c) j = rfind list j := by
  induction list with
  | nil => simp [rfind, rupdate]
  | cons kc rest ih =>
      obtain ⟨k, c1⟩ := kc
      by_cases hk : k = id
      · subst hk
        simp only [rupdate, if_pos rfl, rfind, if_neg (Ne.symm h)]
      · simp only [rupdate, if_neg hk, rfind]
        by_cases hkj : k = j
        · simp [hkj]
        · simp only [if_neg hkj]; exact ih

theorem rupdate_self {list : ComponentsList} {id : Nat} {c : Component}
    (h : rfind list id = some c) : rupdate list id c = list := by
  induction list with
  | nil => simp [rfind] at h
  | cons kc rest ih =>
      obtain ⟨k, c1⟩ := kc
      by_cases hk : k = id
      · subst hk
        have hc : c1 = c := by simpa [rfind] using h
        subst hc
        simp [rupdate]
      · simp only [rfind, if_neg hk] at h
        simp [rupdate, hk, ih h]

theorem rfind_append (l l2 : ComponentsList) (j : Nat) :
    rfind (l ++ l2) j =
      match rfind l j with
      | some c => some c
      | none => rfind l2 j := by
  induction l with
  | nil => simp [rfind]
  | cons kc rest ih =>
      obtain ⟨k, c⟩ := kc
      by_cases hk : k = j <;> simp [rfind, hk, ih]

theorem rfind_add_self (list : ComponentsList) (n : ASTNode) (conf : Nat) :
    rfind (Components.add list n conf) (getId n) =
      some (match rfind list (getId n) with
            | some ex => { ex with confidence := addConf ex.confidence conf }
            | none => { node := n, confidence := conf }) := by
  cases h : rfind list (getId n) with
  | some ex =>
      by_cases h0 : conf = 0 ∨ ex.confidence = 0
      · simp only [Components.add, h, if_pos h0]
        rw [rfind_rupdate_self _ h]
        simp [addConf, h0]
      · simp only [Components.add, h, if_neg h0]
        rw [rfind_rupdate_self _ h]
        simp [addConf, h0]
  | none =>
      simp only [Components.add, h]
      rw [rfind_append]
      simp [h, rfind]

theorem rfind_add_ne (list : ComponentsList) (n : ASTNode) (conf : Nat) {j : Nat}
    (h : j ≠ getId n) :
    rfind (Components.add list n conf) j = rfind list j := by
  cases hf : rfind list (getId n) with
  | some ex =>
      by_cases h0 : conf = 0 ∨ ex.confidence = 0 <;>
        simp [Components.add, hf, h0, rfind_rupdate_ne _ h]
  | none =>
      simp only [Components.add, hf]
      rw [rfind_append]
      cases hj : rfind list j with
      | some c => simp
      | none => simp [rfind, Ne.symm h]

theorem add_existing (list : ComponentsList) (n : ASTNode) (c : Nat)
    {ex : Component} (h : rfind list (getId n) = some ex) :
    Components.add list n c
      = rupdate list (getId n) { ex with confidence := addConf ex.confidence c } := by
  by_cases h0 : c = 0 ∨ ex.confidence = 0 <;> simp [Components.add, h, addConf, h0]

theorem add_fresh (list : ComponentsList) (n : ASTNode) (c : Nat)
    (h : rfind list (getId n) = none) :
    Components.add list n c = list ++ [(getId n, { node := n, confidence := c })] := by
  simp [Components.add, h]

theorem addConf_idem (old c : Nat) : addConf (addConf old c) c = addConf old c := by
  unfold addConf
  by_cases hc : c = 0
  · simp [hc]
  · by_cases ho : old = 0
    · simp [hc, ho]
    · have hmx : ¬ max old c = 0 := by simp [Nat.max_eq_zero_iff, hc, ho]
      simp [hc, ho, hmx, Nat.max_assoc]

/-- Folding `addConf` over a call sequence: zero is absorbing, otherwise the
maximum accumulates. -/
theorem foldl_addConf (cs : List Nat) : ∀ v : Nat,
    cs.foldl addConf v = if v = 0 ∨ 0 ∈ cs then 0 else cs.foldl max v := by
  induction cs with
  | nil => intro v; by_cases h : v = 0 <;> simp [h]
  | cons c rest ih =>
      intro v
      rw [List.foldl_cons, ih (addConf v c)]
      by_cases hv : v = 0
      · simp [addConf, hv]
      · by_cases hc : c = 0
        · simp [addConf, hc]
        · have h1 : addConf v c = max v c := by simp [addConf, hv, hc]
          have h2 : ¬ max v c = 0 := by
            simp [Nat.max_eq_zero_iff, hv, hc]
          rw [h1]
          have h3 : ¬ (0 = c) := fun hh => hc hh.symm
          by_cases hm : (0 : Nat) ∈ rest
          · simp [hm, hv, h2]
          · simp [hm, hv, h2, h3, List.foldl_cons]

/-- The confidence stored after folding a call sequence over an existing
record. -/
theorem foldAdds_confidence_existing (cs : List Nat) :
    ∀ (list : ComponentsList) (n : ASTNode) (ex : Component),
    rfind list (getId n) = some ex →
    (rfind (foldAdds list n cs) (getId n)).map Component.confidence
      = some (cs.foldl addConf ex.confidence) := by
  induction cs with
  | nil => intro list n ex h; simp [foldAdds, h]
  | cons c rest ih =>
      intro list n ex h
      have hstep : rfind (Components.add list n c) (getId n)
          = some { ex with confidence := addConf ex.confidence c } := by
        rw [rfind_add_self]; simp [h]
      have := ih (Components.add list n c) n _ hstep
      simpa [foldAdds] using this

/-! ## Claim C2 -/

/-- C2: for every node and every sequence of `add(node, cᵢ)` calls on a
registry not yet holding the node, the resulting record's confidence is the
maximum of all supplied confidences, except that any call with confidence 0
pins it to 0 for good; and `add(node, c)` is idempotent, so repeating a call
never decreases a previously raised confidence. -/
theorem claim_C2_add_confidence (list : ComponentsList) (n : ASTNode) (cs : List Nat)
    (hfresh : rfind list (getId n) = none) (hne : cs ≠ []) :
    ((rfind (foldAdds list n cs) (getId n)).map Component.confidence
        = some (if 0 ∈ cs then 0 else cs.foldl max 0))
    ∧ ∀ (l : ComponentsList) (c : Nat),
        Components.add (Components.add l n c) n c = Components.add l n c := by
  constructor
  · match cs, hne with
    | c :: rest, _ =>
      have hstep : rfind (Components.add list n c) (getId n)
          = some { node := n, confidence := c } := by
        rw [rfind_add_self]; simp [hfresh]
      have := foldAdds_confidence_existing rest (Components.add list n c) n _ hstep
      have hfold : foldAdds list n (c :: rest) = foldAdds (Components.add list n c) n rest := by
        simp [foldAdds]
      rw [hfold, this, foldl_addConf]
      by_cases hc : c = 0
      · simp [hc]
      · have h3 : ¬ (0 = c) := fun hh => hc hh.symm
        by_cases hm : (0 : Nat) ∈ rest
        · simp [hc, hm]
        · simp [hc, hm, h3, Nat.zero_max]
  · intro l c
    have haddcc : addConf c c = c := by
      unfold addConf; by_cases hc : c = 0 <;> simp [hc]
    cases hf : rfind l (getId n) with
    | some ex =>
        have h1 : rfind (Components.add l n c) (getId n)
            = some { ex with confidence := addConf ex.confidence c } := by
          rw [add_existing l n c hf]
          exact rfind_rupdate_self _ hf
        rw [add_existing (Components.add l n c) n c h1, addConf_idem]
        exact rupdate_self h1
    | none =>
        have h1 : rfind (Components.add l n c) (getId n)
            = some { node := n, confidence := c } := by
          rw [rfind_add_self, hf]
        rw [add_existing (Components.add l n c) n c h1]
        simp only [haddcc]
        exact rupdate_self h1

/-- Witness for C2 at `cs = [1, 2, 1]` on the empty registry: the resulting
confidence is `2`. -/
theorem claim_C2_add_confidence_witness :
    rfind ([] : ComponentsList) (getId c2Node) = none ∧ ([1, 2, 1] : List Nat) ≠ [] ∧
      ((rfind (foldAdds [] c2Node [1, 2, 1]) (getId c2Node)).map Component.confidence
        = some (if 0 ∈ ([1, 2, 1] : List Nat) then 0 else ([1, 2, 1] : List Nat).foldl max 0)) :=
  ⟨by decide, by decide,
    (claim_C2_add_confidence [] c2Node [1, 2, 1] (by decide) (by decide)).1⟩

/-! ## Claim C3 -/

/-- When no node of the chain (the node itself included) is a registered
confidence-≥1 component, the climb of `set` runs off the root. -/
theorem setTarget_none (list : ComponentsList) :
    ∀ chain : List NodeInfo,
    (∀ i ∈ chain, attachable list i = false) →
    Components.setTarget list chain = none := by
  intro chain
  induction chain with
  | nil => intro _; rfl
  | cons info rest ih =>
      intro h
      have hinfo := h info (List.mem_cons_self _ _)
      have htail : ∀ i ∈ rest, attachable list i = false := fun i hi =>
        h i (List.mem_cons_of_mem _ hi)
      unfold attachable at hinfo
      unfold Components.setTarget
      cases hf : rfind list info.nid with
      | some c =>
          rw [hf] at hinfo
          have hlt : c.confidence < 1 := by
            simp only [decide_eq_false_iff_not, not_le] at hinfo
            exact hinfo
          simp only [hf, if_pos hlt]
          exact ih htail
      | none =>
          simp only [hf]
          exact ih htail

/-- The climb of `set` stops exactly at the first attachable node of the
chain. -/
theorem setTarget_first (list : ComponentsList) :
    ∀ (pre : List NodeInfo) (a : NodeInfo) (post : List NodeInfo),
    (∀ i ∈ pre, attachable list i = false) →
    attachable list a = true →
    Components.setTarget list (pre ++ a :: post) = some a.nid := by
  intro pre
  induction pre with
  | nil =>
      intro a post _ ha
      unfold attachable at ha
      unfold Components.setTarget
      cases hf : rfind list a.nid with
      | some c =>
          rw [hf] at ha
          have : ¬ c.confidence < 1 := by
            simp only [decide_eq_true_eq] at ha
            omega
          simp [hf, this]
      | none => rw [hf] at ha; simp at ha
  | cons p pre' ih =>
      intro a post hpre ha
      have hp := hpre p (List.mem_cons_self _ _)
      have hpre' : ∀ i ∈ pre', attachable list i = false := fun i hi =>
        hpre i (List.mem_cons_of_mem _ hi)
      unfold attachable at hp
      rw [List.cons_append]
      unfold Components.setTarget
      cases hf : rfind list p.nid with
      | some c =>
          rw [hf] at hp
          have hlt : c.confidence < 1 := by
            simp only [decide_eq_false_iff_not, not_le] at hp
            exact hp
          simp only [hf, if_pos hlt]
          exact ih a post hpre' ha
      | none =>
          simp only [hf]
          exact ih a post hpre' ha

/-- C3: `set(n, p)` attaches the facts to the first node of the parent chain
starting at `n` itself that is a registered component of confidence ≥ 1, and
is a no-op on the registry when no such node exists up to the root. -/
theorem claim_C3_set_first_attachable (list : ComponentsList) (node : ASTNode)
    (props : SetProps) :
    ((∀ i ∈ node.info :: node.ancestors, attachable list i = false) →
        Components.set list node props = list)
    ∧ (∀ (pre : List NodeInfo) (a : NodeInfo) (post : List NodeInfo),
        node.info :: node.ancestors = pre ++ a :: post →
        (∀ i ∈ pre, attachable list i = false) →
        attachable list a = true →
        ∃ c, rfind list a.nid = some c ∧ 1 ≤ c.confidence ∧
          Components.set list node props = rupdate list a.nid (applyProps c props)) := by
  constructor
  · intro h
    unfold Components.set
    rw [setTarget_none list _ h]
  · intro pre a post heq hpre ha
    have htgt : Components.setTarget list (node.info :: node.ancestors) = some a.nid := by
      rw [heq]; exact setTarget_first list pre a post hpre ha
    have ha' := ha
    unfold attachable at ha'
    cases hf : rfind list a.nid with
    | some c =>
        rw [hf] at ha'
        refine ⟨c, rfl, ?_, ?_⟩
        · simpa [decide_eq_true_eq] using ha'
        · unfold Components.set
          rw [htgt]
          simp only [hf]
    | none => rw [hf] at ha'; simp at ha'

/-- Witness for C3: on a chain whose head is unregistered and whose parent is
a registered confidence-2 component, `set` updates exactly the parent's
record. -/
theorem claim_C3_set_first_attachable_witness :
    ∃ c, rfind c3Reg c3InfoComp.nid = some c ∧ 1 ≤ c.confidence ∧
      Components.set c3Reg c3Node c3Props = rupdate c3Reg c3InfoComp.nid (applyProps c c3Props) :=
  (claim_C3_set_first_attachable c3Reg c3Node c3Props).2 [c3InfoInner] c3InfoComp [c3InfoProg]
    (by decide) (by decide) (by decide)

/-! ## Fact equivalence and merge lemmas -/

theorem usedPropTypesAreEquivalent_iff (p q : PropFact) :
    usedPropTypesAreEquivalent p q = true ↔
      (p.name = q.name ∧ p.allNames.map String.join = q.allNames.map String.join) := by
  unfold usedPropTypesAreEquivalent
  by_cases hn : p.name = q.name
  · cases hA : p.allNames <;> cases hB : q.allNames <;> simp [hn, hA, hB]
  · cases hA : p.allNames <;> cases hB : q.allNames <;> simp [hn, hA, hB]

theorem equivalent_refl (p : PropFact) : usedPropTypesAreEquivalent p p = true := by
  rw [usedPropTypesAreEquivalent_iff]; exact ⟨rfl, rfl⟩

theorem equivalent_trans {p q r : PropFact}
    (h1 : usedPropTypesAreEquivalent p q = true)
    (h2 : usedPropTypesAreEquivalent q r = true) :
    usedPropTypesAreEquivalent p r = true := by
  rw [usedPropTypesAreEquivalent_iff] at h1 h2 ⊢
  exact ⟨h1.1.trans h2.1, h1.2.trans h2.2⟩

theorem equivAny_iff (f : PropFact) (L : List PropFact) :
    equivAny f L = true ↔ ∃ g ∈ L, usedPropTypesAreEquivalent g f = true := by
  simp [equivAny, List.any_eq_true]

/-- A fact has an equivalent in the merge of two lists exactly when it has
one in either list. -/
theorem equivAny_merge_iff (f : PropFact) (A B : List PropFact) :
    equivAny f (mergeUsedPropTypes A B) = true ↔
      (equivAny f A = true ∨ equivAny f B = true) := by
  simp only [equivAny_iff, mergeUsedPropTypes, List.mem_append, List.mem_filter]
  constructor
  · rintro ⟨g, hg, hgf⟩
    cases hg with
    | inl h => exact Or.inl ⟨g, h, hgf⟩
    | inr h => exact Or.inr ⟨g, h.1, hgf⟩
  · rintro (⟨g, hg, hgf⟩ | ⟨g, hg, hgf⟩)
    · exact ⟨g, Or.inl hg, hgf⟩
    · by_cases hdrop : (A.any fun prop => usedPropTypesAreEquivalent prop g) = true
      · rw [List.any_eq_true] at hdrop
        obtain ⟨h, hh, hhg⟩ := hdrop
        exact ⟨h, Or.inl hh, equivalent_trans hhg hgf⟩
      · refine ⟨g, Or.inr ⟨hg, ?_⟩, hgf⟩
        simp only [Bool.not_eq_true] at hdrop
        simp [hdrop]

/-- `set` on a node whose own record has confidence ≥ 1 updates that record
in place. -/
theorem set_direct (list : ComponentsList) (node : ASTNode) (props : SetProps)
    {comp : Component} (h : rfind list (getId node) = some comp)
    (hc : 1 ≤ comp.confidence) :
    Components.set list node props
      = rupdate list (getId node) (applyProps comp props) := by
  have h' : rfind list node.info.nid = some comp := h
  have htgt : Components.setTarget list (node.info :: node.ancestors)
      = some node.info.nid := by
    unfold Components.setTarget
    have : ¬ comp.confidence < 1 := by omega
    simp [h', this]
  unfold Components.set
  rw [htgt]
  simp only [h']
  rfl

/-! ## Claim C7 -/

/-- C7: two facts are equivalent exactly when their names agree and their
`allNames` paths serialize identically (`join('')`, both possibly absent);
merging is commutative with respect to equivalent membership; and recording
the same fact twice through `set` on a component that does not yet hold an
equivalent one leaves exactly one entry for it, the second call changing
nothing. -/
theorem claim_C7_merge_dedup :
    (∀ p q : PropFact, usedPropTypesAreEquivalent p q = true ↔
        (p.name = q.name ∧ p.allNames.map String.join = q.allNames.map String.join))
    ∧ (∀ (f : PropFact) (A B : List PropFact),
        equivAny f (mergeUsedPropTypes A B) = equivAny f (mergeUsedPropTypes B A))
    ∧ (∀ (list : ComponentsList) (n : ASTNode) (comp : Component) (f : PropFact),
        rfind list (getId n) = some comp → 1 ≤ comp.confidence →
        equivAny f comp.usedPropTypes = false →
        ∃ c1, rfind (Components.set list n { usedPropTypes := [f] }) (getId n) = some c1
          ∧ c1.usedPropTypes.countP (fun g => usedPropTypesAreEquivalent g f) = 1
          ∧ Components.set (Components.set list n { usedPropTypes := [f] }) n
                { usedPropTypes := [f] }
              = Components.set list n { usedPropTypes := [f] }) := by
  refine ⟨usedPropTypesAreEquivalent_iff, ?_, ?_⟩
  · intro f A B
    rw [Bool.eq_iff_iff, equivAny_merge_iff, equivAny_merge_iff]
    exact Or.comm
  · intro list n comp f h hc hno
    have hmerge : mergeUsedPropTypes comp.usedPropTypes [f] = comp.usedPropTypes ++ [f] := by
      unfold mergeUsedPropTypes
      have : (comp.usedPropTypes.any fun prop => usedPropTypesAreEquivalent prop f) = false := hno
      simp [List.filter, this]
    have hset1 : Components.set list n { usedPropTypes := [f] }
        = rupdate list (getId n)
            (applyProps comp { usedPropTypes := [f] }) := set_direct list n _ h hc
    have hc1form : applyProps comp { usedPropTypes := [f] }
        = { comp with usedPropTypes := comp.usedPropTypes ++ [f] } := by
      unfold applyProps assignAnnots
      simp [hmerge]
    have h1 : rfind (Components.set list n { usedPropTypes := [f] }) (getId n)
        = some { comp with usedPropTypes := comp.usedPropTypes ++ [f] } := by
      rw [hset1, hc1form]
      exact rfind_rupdate_self _ h
    refine ⟨_, h1, ?_, ?_⟩
    · rw [List.countP_append]
      have hz : comp.usedPropTypes.countP (fun g => usedPropTypesAreEquivalent g f) = 0 := by
        rw [List.countP_eq_zero]
        intro g hg
        have := (List.any_eq_false).mp (by simpa [equivAny] using hno) g hg
        simpa using this
      simp [hz, List.countP_cons, equivalent_refl]
    · have hset2 : Components.set (Components.set list n { usedPropTypes := [f] }) n
          { usedPropTypes := [f] }
          = rupdate (Components.set list n { usedPropTypes := [f] }) (getId n)
              (applyProps { comp with usedPropTypes := comp.usedPropTypes ++ [f] }
                { usedPropTypes := [f] }) := by
        refine set_direct _ n _ h1 ?_
        simpa using hc
      have happ2 : applyProps { comp with usedPropTypes := comp.usedPropTypes ++ [f] }
          { usedPropTypes := [f] }
          = { comp with usedPropTypes := comp.usedPropTypes ++ [f] } := by
        unfold applyProps assignAnnots
        have hhas : ((comp.usedPropTypes ++ [f]).any
            fun prop => usedPropTypesAreEquivalent prop f) = true := by
          rw [List.any_eq_true]
          exact ⟨f, by simp, equivalent_refl f⟩
        unfold mergeUsedPropTypes
        simp [List.filter, hhas]
      rw [hset2, happ2]
      exact rupdate_self h1

/-- Witness for C7's `set`-twice clause on a concrete registry holding one
confidence-2 component with no recorded facts. -/
theorem claim_C7_merge_dedup_witness :
    ∃ c1, rfind (Components.set c7Reg c7Node { usedPropTypes := [c7Fact] }) (getId c7Node)
        = some c1
      ∧ c1.usedPropTypes.countP (fun g => usedPropTypesAreEquivalent g c7Fact) = 1
      ∧ Components.set (Components.set c7Reg c7Node { usedPropTypes := [c7Fact] }) c7Node
            { usedPropTypes := [c7Fact] }
          = Components.set c7Reg c7Node { usedPropTypes := [c7Fact] } :=
  claim_C7_merge_dedup.2.2 c7Reg c7Node
    { node := c7Node, confidence := 2 } c7Fact (by decide) (by decide) (by decide)

/-! ## Claim C8 -/

theorem lookupKey_eq_none_of_not_mem {obj : List (String × Nat)} {k : String}
    (h : k ∉ obj.map Prod.fst) : lookupKey obj k = none := by
  induction obj with
  | nil => rfl
  | cons kv rest ih =>
      obtain ⟨k0, v0⟩ := kv
      simp only [List.map_cons, List.mem_cons] at h
      push_neg at h
      simp only [lookupKey, if_neg (Ne.symm h.1)]
      exact ih h.2

theorem lookupKey_setKey_self (obj : List (String × Nat)) (k : String) (v : Nat) :
    lookupKey (setKey obj k v) k = some v := by
  induction obj with
  | nil => simp [setKey, lookupKey]
  | cons kv rest ih =>
      obtain ⟨k0, v0⟩ := kv
      by_cases hk : k0 = k
      · subst hk; simp [setKey, lookupKey]
      · simp [setKey, lookupKey, hk, ih]

theorem lookupKey_setKey_ne (obj : List (String × Nat)) (k : String) (v : Nat)
    {j : String} (h : j ≠ k) : lookupKey (setKey obj k v) j = lookupKey obj j := by
  induction obj with
  | nil => simp [setKey, lookupKey, Ne.symm h]
  | cons kv rest ih =>
      obtain ⟨k0, v0⟩ := kv
      by_cases hk : k0 = k
      · subst hk
        simp [setKey, lookupKey, Ne.symm h]
      · simp only [setKey, if_neg hk, lookupKey]
        by_cases hj : k0 = j
        · simp [hj]
        · simp only [if_neg hj]
          exact ih

/-- `Object.assign` lookup characterization: fields present in the (unique-
keyed) source win, absent ones fall back to the target. -/
theorem lookupKey_assignAnnots (source : List (String × Nat)) :
    ∀ (target : List (String × Nat)) (j : String),
    (source.map Prod.fst).Nodup →
    lookupKey (assignAnnots target source) j =
      match lookupKey source j with
      | some v => some v
      | none => lookupKey target j := by
  induction source with
  | nil => intro target j _; simp [assignAnnots, lookupKey]
  | cons kv rest ih =>
      intro target j hnd
      obtain ⟨k0, v0⟩ := kv
      simp only [List.map_cons, List.nodup_cons] at hnd
      have hstep : assignAnnots target ((k0, v0) :: rest)
          = assignAnnots (setKey target k0 v0) rest := by
        simp [assignAnnots]
      rw [hstep, ih _ j hnd.2]
      by_cases hj : j = k0
      · subst hj
        have hrest : lookupKey rest j = none :=
          lookupKey_eq_none_of_not_mem hnd.1
        simp [hrest, lookupKey, lookupKey_setKey_self]
      · simp only [lookupKey, if_neg (fun hh : k0 = j => hj hh.symm)]
        cases hr : lookupKey rest j with
        | some v => simp
        | none => simp [lookupKey_setKey_ne _ _ _ hj]

/-- C8 counterexample: a component that carries `hasDisplayName = true`
(value 1) loses that value when a later `set` carries
`hasDisplayName = false` (value 0). -/
theorem claim_C8_counterexample :
    ((rfind c8Reg 80).map fun c => lookupKey c.annots "hasDisplayName") = some (some 1)
    ∧ ((rfind c8Reg2 80).map fun c => lookupKey c.annots "hasDisplayName") = some (some 0) := by
  decide

/-- C8 amended: a later `set` call shallow-overwrites exactly the annotation
fields present in its `props` argument (last writer wins); fields absent from
`props` are preserved, `usedPropTypes` is merged so previously recorded facts
are never lost, the node and confidence are untouched, and no other registry
entry changes. -/
theorem claim_C8_amended (list : ComponentsList) (n : ASTNode) (props : SetProps)
    (comp : Component) (h : rfind list (getId n) = some comp)
    (hc : 1 ≤ comp.confidence) (hnd : (props.annots.map Prod.fst).Nodup) :
    ∃ c', rfind (Components.set list n props) (getId n) = some c'
      ∧ c'.node = comp.node ∧ c'.confidence = comp.confidence
      ∧ (∀ key, lookupKey c'.annots key =
            match lookupKey props.annots key with
            | some v => some v
            | none => lookupKey comp.annots key)
      ∧ c'.usedPropTypes = mergeUsedPropTypes comp.usedPropTypes props.usedPropTypes
      ∧ (∀ f ∈ comp.usedPropTypes, f ∈ c'.usedPropTypes)
      ∧ (∀ j, j ≠ getId n → rfind (Components.set list n props) j = rfind list j) := by
  have hset := set_direct list n props h hc
  refine ⟨applyProps comp props, ?_, rfl, rfl, ?_, rfl, ?_, ?_⟩
  · rw [hset]; exact rfind_rupdate_self _ h
  · intro key
    exact lookupKey_assignAnnots props.annots comp.annots key hnd
  · intro f hf
    unfold applyProps mergeUsedPropTypes
    simp only
    exact List.mem_append_left _ hf
  · intro j hj
    rw [hset]
    exact rfind_rupdate_ne _ hj

/-- Witness for C8 amended on the concrete registry: the `hasDisplayName`
field is overwritten to the new value while an unrelated recorded field
(`hasSCU`) is preserved. -/
theorem claim_C8_amended_witness :
    ∃ c', rfind (Components.set c8Reg c8Node { annots := [("hasDisplayName", 0)] })
          (getId c8Node) = some c'
      ∧ c'.node = c8Node ∧ c'.confidence = 2
      ∧ (∀ key, lookupKey c'.annots key =
            match lookupKey [("hasDisplayName", 0)] key with
            | some v => some v
            | none => lookupKey [("hasDisplayName", 1)] key)
      ∧ c'.usedPropTypes = [] := by
  obtain ⟨c', h1, h2, h3, h4, h5, -, -⟩ :=
    claim_C8_amended c8Reg c8Node { annots := [("hasDisplayName", 0)] }
      { node := c8Node, confidence := 2, annots := [("hasDisplayName", 1)] }
      (by decide) (by decide) (by decide)
  exact ⟨c', h1, h2, h3, by simpa using h4, by simpa using h5⟩

/-! ## Claim C1 lemmas -/

theorem stageFind_stageMerge_self (staged : List (Nat × List PropFact)) (id : Nat)
    (new : List PropFact) :
    Components.stageFind (Components.stageMerge staged id new) id
      = some (mergeUsedPropTypes ((Components.stageFind staged id).getD []) new) := by
  induction staged with
  | nil => simp [Components.stageMerge, Components.stageFind]
  | cons kf rest ih =>
      obtain ⟨k, fs⟩ := kf
      by_cases hk : k = id
      · subst hk; simp [Components.stageMerge, Components.stageFind]
      · simp [Components.stageMerge, Components.stageFind, hk, ih]

theorem stageFind_stageMerge_ne (staged : List (Nat × List PropFact)) (id : Nat)
    (new : List PropFact) {j : Nat} (h : j ≠ id) :
    Components.stageFind (Components.stageMerge staged id new) j
      = Components.stageFind staged j := by
  induction staged with
  | nil => simp [Components.stageMerge, Components.stageFind, Ne.symm h]
  | cons kf rest ih =>
      obtain ⟨k, fs⟩ := kf
      by_cases hk : k = id
      · subst hk
        simp [Components.stageMerge, Components.stageFind, Ne.symm h]
      · simp only [Components.stageMerge, if_neg hk, Components.stageFind]
        by_cases hj : k = j
        · simp [hj]
        · simp only [if_neg hj]
          exact ih

/-- Once a fact has an equivalent staged under an id, every further staging
step keeps one there. -/
theorem stageStep_preserves (r : ComponentsList) (id : Nat) (f : PropFact)
    (staged : List (Nat × List PropFact)) (kc : Nat × Component)
    (h : ∃ fs, Components.stageFind staged id = some fs ∧ equivAny f fs = true) :
    ∃ fs, Components.stageFind (Components.stageStep r staged kc) id = some fs
      ∧ equivAny f fs = true := by
  obtain ⟨fs, hfind, hany⟩ := h
  unfold Components.stageStep
  by_cases hconf : kc.2.confidence < 2
  · simp only [if_pos hconf]
    cases hanc : Components.findAncestorComponent r kc.2.node.ancestors with
    | some component =>
        by_cases hid : getId component.node = id
        · subst hid
          rw [stageFind_stageMerge_self, hfind]
          refine ⟨_, rfl, ?_⟩
          rw [Bool.eq_iff_iff.mp rfl]
          exact (equivAny_merge_iff f _ _).mpr (Or.inl (by simpa using hany))
        · rw [stageFind_stageMerge_ne _ _ _ (fun hh => hid hh.symm)]
          exact ⟨fs, hfind, hany⟩
    | none => exact ⟨fs, hfind, hany⟩
  · simp only [if_neg hconf]
    exact ⟨fs, hfind, hany⟩

theorem staged_fold_preserves (r : ComponentsList) (id : Nat) (f : PropFact) :
    ∀ (l : ComponentsList) (acc : List (Nat × List PropFact)),
    (∃ fs, Components.stageFind acc id = some fs ∧ equivAny f fs = true) →
    ∃ fs, Components.stageFind (l.foldl (Components.stageStep r) acc) id = some fs
      ∧ equivAny f fs = true := by
  intro l
  induction l with
  | nil => intro acc h; exact h
  | cons kc rest ih =>
      intro acc h
      rw [List.foldl_cons]
      exact ih _ (stageStep_preserves r id f acc kc h)

/-- Processing the low-confidence record itself stages an equivalent of each
of its kept facts under its confident ancestor's id. -/
theorem stageStep_hits (r : ComponentsList) (k : Nat) (comp : Component)
    (anc : Component) (f : PropFact)
    (hconf : comp.confidence < 2)
    (hanc : Components.findAncestorComponent r comp.node.ancestors = some anc)
    (hf : f ∈ comp.usedPropTypes) (hkeep : Components.keepFact f = true)
    (acc : List (Nat × List PropFact)) :
    ∃ fs, Components.stageFind (Components.stageStep r acc (k, comp)) (getId anc.node)
        = some fs ∧ equivAny f fs = true := by
  unfold Components.stageStep
  simp only [if_pos hconf, hanc]
  rw [stageFind_stageMerge_self]
  refine ⟨_, rfl, ?_⟩
  have hmemf : f ∈ comp.usedPropTypes.filter Components.keepFact := by
    rw [List.mem_filter]; exact ⟨hf, hkeep⟩
  have : equivAny f (comp.usedPropTypes.filter Components.keepFact) = true := by
    rw [equivAny_iff]
    exact ⟨f, hmemf, equivalent_refl f⟩
  exact (equivAny_merge_iff f _ _).mpr (Or.inr this)

theorem staged_fold_hits (r : ComponentsList) (k : Nat) (comp : Component)
    (anc : Component) (f : PropFact)
    (hconf : comp.confidence < 2)
    (hanc : Components.findAncestorComponent r comp.node.ancestors = some anc)
    (hf : f ∈ comp.usedPropTypes) (hkeep : Components.keepFact f = true) :
    ∀ (l : ComponentsList) (acc : List (Nat × List PropFact)), (k, comp) ∈ l →
    ∃ fs, Components.stageFind (l.foldl (Components.stageStep r) acc) (getId anc.node)
        = some fs ∧ equivAny f fs = true := by
  intro l
  induction l with
  | nil => intro acc h; cases h
  | cons kc rest ih =>
      intro acc hmem
      rw [List.foldl_cons]
      rcases List.mem_cons.mp hmem with heq | htail
      · subst heq
        exact staged_fold_preserves r _ f rest _
          (stageStep_hits r k comp anc f hconf hanc hf hkeep acc)
      · exact ih _ htail

theorem rfind_mem {list : ComponentsList} {id : Nat} {c : Component}
    (h : rfind list id = some c) : (id, c) ∈ list := by
  induction list with
  | nil => simp [rfind] at h
  | cons kc rest ih =>
      obtain ⟨k, c0⟩ := kc
      by_cases hk : k = id
      · subst hk
        have : c0 = c := by simpa [rfind] using h
        subst this
        exact List.mem_cons_self _ _
      · simp only [rfind, if_neg hk] at h
        exact List.mem_cons_of_mem _ (ih h)

theorem findAncestorComponent_exists (r : ComponentsList) :
    ∀ (chain : List NodeInfo) (anc : Component),
    Components.findAncestorComponent r chain = some anc →
    ∃ id, rfind r id = some anc ∧ 1 ≤ anc.confidence := by
  intro chain
  induction chain with
  | nil => intro anc h; simp [Components.findAncestorComponent] at h
  | cons a rest ih =>
      intro anc h
      unfold Components.findAncestorComponent at h
      by_cases hdec : a.typ = "Decorator"
      · simp [hdec] at h
      · simp only [if_neg hdec] at h
        cases hr : rfind r a.nid with
        | some item =>
            rw [hr] at h
            by_cases hc : 1 ≤ item.confidence
            · simp only [if_pos hc, Option.some.injEq] at h
              subst h
              exact ⟨a.nid, hr, hc⟩
            · simp only [if_neg hc] at h
              exact ih anc h
        | none =>
            rw [hr] at h
            exact ih anc h

/-- `listAug` keeps the key of the entry it augments. -/
theorem listAug_fst (staged : List (Nat × List PropFact)) (kc : Nat × Component) :
    (Components.listAug staged kc).1 = kc.1 := by
  unfold Components.listAug
  cases Components.stageFind staged (getId kc.2.node) <;> rfl

/-- Key lookup through a filtered-and-mapped registry with unique keys. -/
theorem rfind_filter_map (g : Nat × Component → Nat × Component)
    (hg : ∀ kc, (g kc).1 = kc.1) (pred : Nat × Component → Bool) :
    ∀ (l : ComponentsList), (l.map Prod.fst).Nodup →
    ∀ (k : Nat) (c : Component), (k, c) ∈ l → pred (k, c) = true →
    rfind ((l.filter pred).map g) k = some (g (k, c)).2 := by
  intro l
  induction l with
  | nil => intro _ k c h; cases h
  | cons kc0 rest ih =>
      intro hnd k c hmem hpred
      obtain ⟨k0, c0⟩ := kc0
      rw [List.map_cons] at hnd
      have hnodup := List.nodup_cons.mp hnd
      rcases List.mem_cons.mp hmem with heq | htail
      · cases heq
        rw [List.filter_cons, if_pos hpred, List.map_cons]
        cases hgk : g (k, c) with
        | mk gk gc =>
            have hgk1 : gk = k := by
              have := hg (k, c)
              rw [hgk] at this
              exact this
            subst hgk1
            simp [rfind]
      · have hkne : k0 ≠ k := by
          intro h
          apply hnodup.1
          have hmm : Prod.fst (k, c) ∈ List.map Prod.fst rest :=
            List.mem_map_of_mem Prod.fst htail
          rw [h]
          exact hmm
        rw [List.filter_cons]
        by_cases hp0 : pred (k0, c0) = true
        · rw [if_pos hp0, List.map_cons]
          have hfst : (g (k0, c0)).1 = k0 := hg (k0, c0)
          cases hgk : g (k0, c0) with
          | mk gk gc =>
              rw [hgk] at hfst
              have hkne2 : gk ≠ k := by
                have hgkk : gk = k0 := hfst
                rw [hgkk]
                exact hkne
              have hstep : rfind ((gk, gc) :: (rest.filter pred).map g) k
                  = rfind ((rest.filter pred).map g) k := by
                simp [rfind, hkne2]
              rw [hstep]
              exact ih hnodup.2 k c htail hpred
        · rw [if_neg (by simpa using hp0)]
          exact ih hnodup.2 k c htail hpred

/-! ## Claim C1 -/

/-- C1 counterexample: in `c1Reg` the recorded node `L` (id 30, confidence 1)
carries the non-`init` fact `c1Fact`; its ancestor chain has no `Decorator`
and contains the confidence-2 component `T` (id 10); yet the entry `list()`
emits for `T` holds no fact equivalent to `c1Fact` — the climb stopped at the
confidence-1 record `M` (id 20), whose staged facts are never emitted. -/
theorem claim_C1_counterexample :
    ((rfind c1Reg 30).map Component.confidence = some 1)
    ∧ ((rfind c1Reg 30).map Component.usedPropTypes = some [c1Fact])
    ∧ Components.keepFact c1Fact = true
    ∧ ((rfind c1Reg 30).map fun c => c.node.ancestors)
        = some [c1InfoM, c1InfoT, c1InfoProg]
    ∧ (∀ i ∈ c1NodeL.ancestors, i.typ ≠ "Decorator")
    ∧ ((rfind c1Reg 10).map Component.confidence = some 2)
    ∧ ((rfind c1Reg 10).map fun c => getId c.node) = some 10
    ∧ ((rfind (Components.list c1Reg) 10).map
        fun c => equivAny c1Fact c.usedPropTypes) = some false := by
  decide

/-- C1 amended: at walk completion, `list()` emits exactly the recorded
entries of confidence ≥ 2 (key, node and confidence unchanged); and for every
recorded entry of confidence < 2, its ancestor chain is climbed (stopping at
a `Decorator`) to the **first ancestor holding a confidence-≥1 record** — not
necessarily a confidence-≥2 one — and only when that ancestor's confidence is
≥ 2 do the entry's facts (minus those whose attached node has declaration
kind `init`) reach the output: each such fact then has an equivalent in that
ancestor's emitted `usedPropTypes`. -/
theorem claim_C1_amended (r : ComponentsList) (hwk : WellKeyed r) (hnd : NodupKeys r) :
    ((Components.list r).map Prod.fst
        = (r.filter fun kc => decide (2 ≤ kc.2.confidence)).map Prod.fst)
    ∧ (∀ kc ∈ Components.list r, ∃ c, (kc.1, c) ∈ r ∧ 2 ≤ c.confidence
        ∧ kc.2.node = c.node ∧ kc.2.confidence = c.confidence)
    ∧ (∀ (k : Nat) (comp anc : Component) (f : PropFact),
        (k, comp) ∈ r → comp.confidence < 2 →
        Components.findAncestorComponent r comp.node.ancestors = some anc →
        2 ≤ anc.confidence →
        f ∈ comp.usedPropTypes → Components.keepFact f = true →
        ∃ e, rfind (Components.list r) (getId anc.node) = some e
          ∧ equivAny f e.usedPropTypes = true) := by
  refine ⟨?_, ?_, ?_⟩
  · unfold Components.list
    rw [List.map_map]
    apply List.map_congr_left
    intro kc _
    simp only [Function.comp_apply]
    exact listAug_fst _ kc
  · intro kc hkc
    unfold Components.list at hkc
    rw [List.mem_map] at hkc
    obtain ⟨kc0, hmem0, heq⟩ := hkc
    rw [List.mem_filter] at hmem0
    obtain ⟨hmem0, hconf0⟩ := hmem0
    have h1 : kc.1 = kc0.1 := by rw [← heq]; exact listAug_fst _ _
    have h2 : kc.2.node = kc0.2.node ∧ kc.2.confidence = kc0.2.confidence := by
      rw [← heq]
      unfold Components.listAug
      cases Components.stageFind (Components.stagedUsedPropTypes r) (getId kc0.2.node) <;>
        exact ⟨rfl, rfl⟩
    refine ⟨kc0.2, ?_, by simpa using hconf0, h2.1, h2.2⟩
    rw [h1]
    simpa using hmem0
  · intro k comp anc f hmem hlow hanc hanc2 hf hkeep
    obtain ⟨fs, hfind, hany⟩ :=
      staged_fold_hits r k comp anc f hlow hanc hf hkeep r [] hmem
    obtain ⟨id, hid, _⟩ := findAncestorComponent_exists r comp.node.ancestors anc hanc
    have hmemanc : (id, anc) ∈ r := rfind_mem hid
    have hida : getId anc.node = id := hwk _ hmemanc
    have hpred : (fun kc : Nat × Component => decide (2 ≤ kc.2.confidence)) (id, anc)
        = true := by simpa using hanc2
    have hlook := rfind_filter_map (Components.listAug (Components.stagedUsedPropTypes r))
        (listAug_fst _) (fun kc : Nat × Component => decide (2 ≤ kc.2.confidence))
        r hnd id anc hmemanc hpred
    refine ⟨(Components.listAug (Components.stagedUsedPropTypes r) (id, anc)).2, ?_, ?_⟩
    · rw [hida]
      unfold Components.list
      exact hlook
    · unfold Components.listAug
      have hsc : Components.stageFind (Components.stagedUsedPropTypes r)
          (getId (id, anc).2.node) = some fs := hfind
      rw [hsc]
      simp only
      exact (equivAny_merge_iff f _ _).mpr (Or.inr hany)

/-- Witness for C1 amended on `c1wReg`, where the tentative node sits
directly below the confirmed component: the fact reaches the emitted entry. -/
theorem claim_C1_amended_witness :
    ∃ e, rfind (Components.list c1wReg)
          (getId (Component.node { node := c1NodeT, confidence := 2 })) = some e
      ∧ equivAny c1Fact e.usedPropTypes = true :=
  (claim_C1_amended c1wReg (by decide) (by decide)).2.2 31
    { node := c1wNodeL, confidence := 1, usedPropTypes := [c1Fact] }
    { node := c1NodeT, confidence := 2 } c1Fact
    (by decide) (by decide) (by decide) (by decide) (by decide) (by decide)

/-! ## Claim C4 -/

/-- C4 counterexample: in the walk of
`const Foo = function() { return <div>{this.props.x}</div>; }`, the `this`
expression's enclosing function (id 43) is a recognized stateless component
and the parent of `this` accesses a property, yet the function keeps
confidence 2, is still returned by `get` and still emitted by `list`; the
confidence-0 record is keyed by the `ThisExpression` node (id 48) itself. -/
theorem claim_C4_counterexample :
    getParentStatelessComponent c4Env [c4NodeFun] = some c4NodeFun
    ∧ c4InfoMember.hasProperty = true
    ∧ ((rfind c4Walk 43).map Component.confidence = some 2)
    ∧ ((Components.get c4Walk c4NodeFun).map Component.confidence = some 2)
    ∧ (Components.list c4Walk).map Prod.fst = [43]
    ∧ ((rfind c4Walk 48).map Component.confidence = some 0) := by
  decide

/-- C4 amended: the `ThisExpression` instruction adds a confidence-0 record
keyed by the `this` expression node itself and touches no other entry — in
particular the enclosing function's record keeps its confidence and the
function stays visible through `get` and `list`, while the confidence-0
`this` record is itself invisible to both. -/
theorem claim_C4_amended :
    (∀ (env : DetectEnv) (list : ComponentsList) (node : ASTNode)
        (scopeBlocks : List ASTNode) (j : Nat), j ≠ getId node →
        rfind (detectionThisExpression env list node scopeBlocks) j = rfind list j)
    ∧ ((rfind c4Walk 48).map Component.confidence = some 0)
    ∧ Components.get c4Walk c4NodeThis = none
    ∧ (Components.list c4Walk).map Prod.fst = [43]
    ∧ ((Components.get c4Walk c4NodeFun).map Component.confidence = some 2) := by
  constructor
  · intro env list node scopeBlocks j hj
    unfold detectionThisExpression
    cases getParentStatelessComponent env scopeBlocks with
    | none => rfl
    | some component =>
        dsimp only
        by_cases hfn : ("Function".toList <:+: component.info.typ.toList)
        · rw [if_neg (not_not_intro hfn)]
          obtain ⟨info, ancs⟩ := node
          cases ancs with
          | nil => rfl
          | cons parent rest =>
              dsimp only
              by_cases hp : parent.hasProperty = true
              · rw [if_pos hp]
                exact rfind_add_ne list ⟨info, parent :: rest⟩ 0 hj
              · rw [if_neg hp]
        · rw [if_pos hfn]
  · exact ⟨by decide, by decide, by decide, by decide⟩

/-- Witness for C4 amended: the instruction leaves the enclosing function's
entry (id 43) untouched in the concrete walk. -/
theorem claim_C4_amended_witness :
    rfind (detectionThisExpression c4Env (detectionFunctionLike c4Env [] c4NodeFun)
        c4NodeThis [c4NodeFun]) 43
      = rfind (detectionFunctionLike c4Env [] c4NodeFun) 43 :=
  claim_C4_amended.1 c4Env (detectionFunctionLike c4Env [] c4NodeFun) c4NodeThis
    [c4NodeFun] 43 (by decide)

/-! ## Claim C6 -/

/-- C6 counterexample: the walk over
`const Foo = memo(forwardRef((props, ref) => <div/>))` registers TWO
confidence-2 components — the nested `forwardRef` call (id 64) gets its own
record from the `CallExpression` instruction because its first argument is
function-like, besides the outer `memo` call (id 63). -/
theorem claim_C6_counterexample :
    ((rfind c6Walk 64).map Component.confidence = some 2)
    ∧ Components.length c6Walk = 2
    ∧ (Components.list c6Walk).map Prod.fst = [64, 63] := by
  decide

/-- C6 amended: the walk registers exactly two confidence-2 components — the
nested `forwardRef` call and the outer `memo` call; the inner arrow function
gets no record of its own, its stateless-component test attributing
confidence to the outermost wrapper call. -/
theorem claim_C6_amended :
    c6Walk.map (fun kc => (kc.1, kc.2.confidence)) = [(64, 2), (63, 2)]
    ∧ rfind c6Walk 65 = none
    ∧ getStatelessComponent c6Env c6NodeArrow = some c6NodeMemo
    ∧ getPragmaComponentWrapper c6Env c6NodeArrow = some c6NodeMemo := by
  decide

/-! ## Claim C9 -/

/-- C9 counterexample: with the malformed setting `version: "not-semver"`,
each of two successive calls to `getReactVersionFromContext` emits the
malformed-version warning again — it is not de-duplicated, and the
remembered flag (which guards only the missing-version warning) stays
unset. -/
theorem claim_C9_counterexample :
    c9Call1.2.log = [msgMalformedVersion "not-semver"]
    ∧ c9Call2.2.log = [msgMalformedVersion "not-semver", msgMalformedVersion "not-semver"]
    ∧ c9Call2.2.warnedForMissingVersion = false
    ∧ c9Call1.1 = "999.999.999" := by
  decide

/-- C9 amended: a malformed (non-`detect`, non-coercible) `version` setting
makes every call emit one malformed-version warning (no de-duplication; the
remembered flag is untouched), and the call proceeds with the default
version — `999.999.999` when no `defaultVersion` setting is present. -/
theorem claim_C9_amended (coerce : String → Option String) (detected : String)
    (settings : ReactSettings) (s : VersionState) (v : String)
    (hv : settings.version = some v) (hvne : v ≠ "") (hdet : v ≠ "detect")
    (hmal : convertConfVerToSemver coerce v = none)
    (hnodef : settingTruthy settings.defaultVersionSetting = false) :
    getReactVersionFromContext coerce detected settings s
      = ("999.999.999",
         { warnedForMissingVersion := s.warnedForMissingVersion
           defaultVersion := "999.999.999"
           log := s.log ++ [msgMalformedVersion v] }) := by
  have hs1 : readDefaultReactVersionFromContext coerce settings s
      = { s with defaultVersion := ULTIMATE_LATEST_SEMVER } := by
    unfold readDefaultReactVersionFromContext
    rw [hnodef]
    simp
  have h1 : settingTruthy settings.version = true := by
    rw [hv]; simp [settingTruthy, hvne]
  unfold getReactVersionFromContext
  rw [hs1, h1]
  simp [hv, hdet, hmal, ULTIMATE_LATEST_SEMVER]

/-- Witness for C9 amended at the concrete malformed configuration. -/
theorem claim_C9_amended_witness :
    getReactVersionFromContext c9Coerce "detect-unused" c9Settings {}
      = ("999.999.999",
         { warnedForMissingVersion := false
           defaultVersion := "999.999.999"
           log := [msgMalformedVersion "not-semver"] }) := by
  have h := claim_C9_amended c9Coerce "detect-unused" c9Settings {} "not-semver"
    rfl (by decide) (by decide) (by decide) rfl
  simpa using h

/-! ## Claim C10 -/

/-- C10 failing trace: after `set "a"; pushScope; popScope; pushScope;
set "c"; popScope`, the variable `"c"` written between the second balanced
`pushScope`/`popScope` pair is still visible through `get` after the pop;
the inner write skipped the copy (the closure-level `hasBeenWritten` was
stale after the first pop) and mutated the map object the outer scope itself
references. -/
theorem claim_C10_scope_restore_failure :
    pvGet c10s3 "c" = none
    ∧ c10s4.curHBW = true
    ∧ c10s5.cur = c10s4.cur
    ∧ c10s4.stack.map Prod.fst = [1, 1]
    ∧ pvGet c10s6 "c" = some ["c"]
    ∧ pvGet c10s6 "a" = some ["a"] := by
  decide

/-! ## Claim C5 -/

/-- Re-merging a list over its own extension adds only the genuinely new
facts: `merge X (X ++ Y) = merge X Y`. -/
theorem merge_absorb (X Y : List PropFact) :
    mergeUsedPropTypes X (X ++ Y) = mergeUsedPropTypes X Y := by
  unfold mergeUsedPropTypes
  rw [List.filter_append]
  have hX : X.filter
      (fun newProp => !(X.any fun prop => usedPropTypesAreEquivalent prop newProp)) = [] := by
    rw [List.filter_eq_nil_iff]
    intro a ha
    have hany : (X.any fun prop => usedPropTypesAreEquivalent prop a) = true := by
      rw [List.any_eq_true]
      exact ⟨a, ha, equivalent_refl a⟩
    simp [hany]
  rw [hX, List.nil_append]

/-- The destructuring loop on a flat prefix of plain keyed properties
followed by a spread/computed element: facts for every prefix key are pushed
in order, the ignore flag is raised, the keys after the spread are skipped,
and the registry is not touched by the loop itself. -/
theorem destrLoop_flat (targetParent : Option ASTNode) (parentNames : List String) :
    ∀ (pre : List PatProp) (s : PatProp) (post : List PatProp)
      (facts : List PropFact) (ig : Bool) (pv : PropVarState) (reg : ComponentsList),
    (∀ p ∈ pre, p.isSpread = false ∧ p.info.computedFlag = false
      ∧ p.keyName.isSome = true ∧ p.keyName ≠ some "" ∧ p.info.typ = "Property"
      ∧ p.valueObjectPattern.isNone = true) →
    (s.isSpread = true ∨ s.info.computedFlag = true) →
    ∃ pv', destrLoop targetParent (pre ++ s :: post) parentNames facts ig pv reg
      = (facts ++ pre.map (patFact parentNames), true, pv', reg) := by
  intro pre
  induction pre with
  | nil =>
      intro s post facts ig pv reg _ hs
      refine ⟨pv, ?_⟩
      cases s with
      | mk info isSpread keyName valueIdentName valueObjectPattern =>
          have hcond : (isSpread || info.computedFlag) = true := by
            rcases hs with h | h
            · simp only [PatProp.isSpread] at h
              simp [h]
            · simp only [PatProp.info] at h
              simp [h]
          rw [List.nil_append]
          unfold destrLoop
          rw [if_pos hcond]
          simp
  | cons p pre' ih =>
      intro s post facts ig pv reg hpre hs
      obtain ⟨hsp, hcf, hkn, hkne, htyp, hvo⟩ := hpre p (List.mem_cons_self _ _)
      have hpre' : ∀ q ∈ pre', _ := fun q hq => hpre q (List.mem_cons_of_mem _ hq)
      cases p with
      | mk info isSpread keyName valueIdentName valueObjectPattern =>
          simp only [PatProp.isSpread] at hsp
          simp only [PatProp.info] at hcf htyp
          simp only [PatProp.keyName] at hkn hkne
          simp only [PatProp.valueObjectPattern] at hvo
          obtain ⟨nm, hnm⟩ := Option.isSome_iff_exists.mp hkn
          have hnmne : nm ≠ "" := by
            intro h
            exact hkne (by rw [hnm, h])
          have hvo' : valueObjectPattern = none := Option.isNone_iff_eq_none.mp hvo
          subst hvo'
          have hcond : (isSpread || info.computedFlag) = false := by
            simp [hsp, hcf]
          rw [List.cons_append]
          unfold destrLoop
          rw [if_neg (by simp [hcond]), hnm]
          simp only
          rw [if_neg (by simp [hnmne, htyp])]
          have hfactdef : patFact parentNames
              (PatProp.mk info isSpread (some nm) valueIdentName none)
              = { name := nm, allNames := some (parentNames ++ [nm]), node := some info } := by
            unfold patFact
            simp [PatProp.keyName, PatProp.info]
          cases valueIdentName with
          | some vname =>
              simp only
              obtain ⟨pv', hrec⟩ := ih s post
                (facts ++ [{ name := nm, allNames := some (parentNames ++ [nm])
                             node := some info }])
                ig (pvSet pv vname (parentNames ++ [nm])) reg hpre' hs
              refine ⟨pv', ?_⟩
              rw [hrec, List.map_cons, hfactdef, List.append_assoc]
              rfl
          | none =>
              simp only
              obtain ⟨pv', hrec⟩ := ih s post
                (facts ++ [{ name := nm, allNames := some (parentNames ++ [nm])
                             node := some info }])
                ig pv reg hpre' hs
              refine ⟨pv', ?_⟩
              rw [hrec, List.map_cons, hfactdef, List.append_assoc]
              rfl

/-- The effect of `markDestructuredFunctionArgumentsAsUsed` on a registered
confident component with a flat destructured parameter whose keyed
properties precede a spread/computed element (the shared computation behind
the C5 results). -/
theorem markDestructuredFlatSpec (reg : ComponentsList) (pv : PropVarState)
    (fnNode : ASTNode) (comp : Component) (pre : List PatProp) (s : PatProp)
    (post : List PatProp)
    (hwk : WellKeyed reg)
    (hcomp : rfind reg (getId fnNode) = some comp) (hconf : 1 ≤ comp.confidence)
    (hpre : ∀ p ∈ pre, p.isSpread = false ∧ p.info.computedFlag = false
      ∧ p.keyName.isSome = true ∧ p.keyName ≠ some "" ∧ p.info.typ = "Property"
      ∧ p.valueObjectPattern.isNone = true)
    (hs : s.isSpread = true ∨ s.info.computedFlag = true) :
    ∃ (pv' : PropVarState) (c' : Component),
      markDestructuredFunctionArgumentsAsUsed reg pv fnNode
          [ParamShape.objectPatternParam (pre ++ s :: post)] false (some fnNode)
        = (rupdate reg (getId fnNode) c', pv')
      ∧ c'.ignoreFlag = true
      ∧ c'.usedPropTypes = mergeUsedPropTypes comp.usedPropTypes (pre.map (patFact []))
      ∧ c'.confidence = comp.confidence ∧ c'.node = comp.node := by
  have hget : Components.get reg fnNode = some comp := by
    unfold Components.get
    rw [hcomp]
    dsimp only
    rw [if_pos hconf]
  have hkeyeq : getId comp.node = getId fnNode := hwk _ (rfind_mem hcomp)
  have hcompn : rfind reg (getId comp.node) = some comp := by rw [hkeyeq]; exact hcomp
  obtain ⟨pv₁, hloop⟩ := destrLoop_flat (some fnNode) [] pre s post
    comp.usedPropTypes false pv reg hpre hs
  have hAcc : markPropTypesAsUsedDestrAcc (some fnNode) fnNode (pre ++ s :: post) []
      comp.usedPropTypes pv reg
      = (comp.usedPropTypes ++ pre.map (patFact []), pv₁,
         Components.set reg comp.node
           { usedPropTypes := comp.usedPropTypes ++ pre.map (patFact [])
             annots := [("ignoreUnusedPropTypesValidation", boolAnnot true)] }) := by
    unfold markPropTypesAsUsedDestrAcc
    dsimp only [Option.bind]
    rw [hget]
    dsimp only [Option.map_some']
    rw [hloop]
    simp [Bool.or_true, boolAnnot]
  have hDes : markPropTypesAsUsedDestructuring reg pv (some fnNode) fnNode
      (pre ++ s :: post) []
      = (Components.set reg comp.node
           { usedPropTypes := comp.usedPropTypes ++ pre.map (patFact [])
             annots := [("ignoreUnusedPropTypesValidation", boolAnnot true)] }, pv₁) := by
    unfold markPropTypesAsUsedDestructuring
    dsimp only [Option.bind]
    rw [hget]
    dsimp only [Option.map_some', Option.getD_some]
    rw [hAcc]
  have hset := set_direct reg comp.node
      { usedPropTypes := comp.usedPropTypes ++ pre.map (patFact [])
        annots := [("ignoreUnusedPropTypesValidation", boolAnnot true)] } hcompn hconf
  refine ⟨pv₁, applyProps comp
      { usedPropTypes := comp.usedPropTypes ++ pre.map (patFact [])
        annots := [("ignoreUnusedPropTypesValidation", boolAnnot true)] }, ?_, ?_, ?_, rfl, rfl⟩
  · unfold markDestructuredFunctionArgumentsAsUsed
    rw [if_pos ?cnd]
    case cnd =>
      dsimp only [List.get?]
      rw [hget]
      simp
    unfold markPropTypesAsUsedFunctionLike
    dsimp only [List.get?]
    simp only [Bool.false_eq_true, if_false]
    rw [hDes, hset, hkeyeq]
  · unfold Component.ignoreFlag applyProps
    dsimp only
    rw [lookupKey_assignAnnots _ _ _ (by simp)]
    simp [lookupKey, boolAnnot]
  · unfold applyProps
    dsimp only
    exact merge_absorb _ _

/-- C5 counterexample: handling `function Foo({a, ...rest}) { return
<div/>; }` sets the ignore-validation flag on `Foo` **and** records the
usage fact for `a` (the key precedes the rest element in the loop) —
refuting "records no partial usage fact for the pattern's other keys". -/
theorem claim_C5_counterexample :
    ((rfind c5Run.1 51).map Component.ignoreFlag = some true)
    ∧ ((rfind c5Run.1 51).map fun c => equivAny (patFact [] c5PropA) c.usedPropTypes)
        = some true
    ∧ ((rfind c5Run.1 51).map fun c => c.usedPropTypes.map PropFact.name)
        = some ["a"] := by
  have hco : rfind c5Reg0 (getId c5NodeFoo)
      = some ({ node := c5NodeFoo, confidence := 2 } : Component) := by decide
  obtain ⟨pv', c', heq, hig, hused, -, -⟩ :=
    markDestructuredFlatSpec c5Reg0 createPropVariables c5NodeFoo
      { node := c5NodeFoo, confidence := 2 } [c5PropA] c5PropRest []
      (by decide) hco (by decide)
      (by
        intro p hp
        have hpa : p = c5PropA := by simpa using hp
        subst hpa
        exact ⟨rfl, rfl, rfl, by decide, rfl, rfl⟩)
      (Or.inl rfl)
  have hrun : c5Run = (rupdate c5Reg0 (getId c5NodeFoo) c', pv') := heq
  have hfind : rfind c5Run.1 51 = some c' := by
    rw [hrun]
    exact rfind_rupdate_self c' hco
  have husedv : c'.usedPropTypes = [patFact [] c5PropA] := by
    rw [hused]
    decide
  refine ⟨?_, ?_, ?_⟩
  · rw [hfind, Option.map_some', hig]
  · rw [hfind, Option.map_some', husedv]
    simp [equivAny, equivalent_refl]
  · rw [hfind, Option.map_some', husedv]
    decide

/-- C5 amended: a destructured props pattern containing a rest/spread or
computed element sets the ignore-validation flag on the owning component,
records one usage fact per key **preceding** the first such element, and
records nothing for the element itself or the keys after it. -/
theorem claim_C5_amended (reg : ComponentsList) (pv : PropVarState) (fnNode : ASTNode)
    (comp : Component) (pre : List PatProp) (s : PatProp) (post : List PatProp)
    (hwk : WellKeyed reg)
    (hcomp : rfind reg (getId fnNode) = some comp) (hconf : 1 ≤ comp.confidence)
    (hpre : ∀ p ∈ pre, p.isSpread = false ∧ p.info.computedFlag = false
      ∧ p.keyName.isSome = true ∧ p.keyName ≠ some "" ∧ p.info.typ = "Property"
      ∧ p.valueObjectPattern.isNone = true)
    (hs : s.isSpread = true ∨ s.info.computedFlag = true) :
    ∃ (pv' : PropVarState) (c' : Component),
      markDestructuredFunctionArgumentsAsUsed reg pv fnNode
          [ParamShape.objectPatternParam (pre ++ s :: post)] false (some fnNode)
        = (rupdate reg (getId fnNode) c', pv')
      ∧ c'.ignoreFlag = true
      ∧ c'.usedPropTypes = mergeUsedPropTypes comp.usedPropTypes (pre.map (patFact []))
      ∧ c'.confidence = comp.confidence ∧ c'.node = comp.node :=
  markDestructuredFlatSpec reg pv fnNode comp pre s post hwk hcomp hconf hpre hs

/-- Witness for C5 amended on the `function Foo({a, ...rest})` scenario. -/
theorem claim_C5_amended_witness :
    ∃ (pv' : PropVarState) (c' : Component),
      markDestructuredFunctionArgumentsAsUsed c5Reg0 createPropVariables c5NodeFoo
          [ParamShape.objectPatternParam ([c5PropA] ++ c5PropRest :: [])] false
          (some c5NodeFoo)
        = (rupdate c5Reg0 (getId c5NodeFoo) c', pv')
      ∧ c'.ignoreFlag = true
      ∧ c'.usedPropTypes = mergeUsedPropTypes [] ([c5PropA].map (patFact []))
      ∧ c'.confidence = 2 ∧ c'.node = c5NodeFoo := by
  have hco : rfind c5Reg0 (getId c5NodeFoo)
      = some ({ node := c5NodeFoo, confidence := 2 } : Component) := by decide
  exact claim_C5_amended c5Reg0 createPropVariables c5NodeFoo
    { node := c5NodeFoo, confidence := 2 } [c5PropA] c5PropRest []
    (by decide) hco (by decide)
    (by
      intro p hp
      have hpa : p = c5PropA := by simpa using hp
      subst hpa
      exact ⟨rfl, rfl, rfl, by decide, rfl, rfl⟩)
    (Or.inl rfl)

end ESLintReact
